import Mathlib

/-!
Locality registry and domain tag resolver of DART (dart-impl/base/src/locality.c)

A shallow embedding of `locality.c`:

* C strings are lists of characters followed by an implicit terminator; a
  pointer into a string is an index, and reading past the terminator is a
  fault (`deref`);
* `long` has 64 bits and `int` has 32 bits (LP64, the Linux platform the file
  is configured for); narrowing wraps modulo `2 ^ 32`;
* a pointer to a domain is modelled by the domain it points to, the null
  pointer by `none`; the children array `domains` is the list of children;
* the three global tables are functions on `Fin 32`; indexing them with a team
  id outside `0 .. 31` is a fault;
* functions of other translation units (release operations, unit locality
  exchange, host topology, sub-domain construction, `malloc`) are fields of a
  collaborator record.
-/

namespace Dart

/-! ## Return codes and outcomes -/

/-- Modelled from the spec: the enumeration of return codes is declared in
`dash/dart/if/dart_types.h`, which is not part of the sources at hand.
`locality.c` names only `DART_OK` and `DART_ERR_INVAL`; every other code a
collaborator may return is `DART_ERR_OTHER`. -/
inductive dart_ret_t where
  | DART_OK
  | DART_ERR_INVAL
  | DART_ERR_OTHER (code : Nat)
  deriving DecidableEq, Repr

open dart_ret_t

/-- What a call of a C function does: it returns a code together with the
state or output it leaves behind, or it accesses memory outside an object
(`fault`, undefined behaviour in C), or a failed assertion ends the process
(`stop`), or the model of a loop ran out of fuel before the loop ended
(`nofuel`). -/
inductive Outcome (α : Type) where
  | ret (code : dart_ret_t) (out : α)
  | fault
  | stop
  | nofuel
  deriving DecidableEq, Repr

/-! ## Machine integers -/

/-- Largest value of `long` (64 bits). -/
def LONG_MAX : Int := 2 ^ 63 - 1

/-- Smallest value of `long` (64 bits). -/
def LONG_MIN : Int := -(2 ^ 63)

/-- Largest value of `int` (32 bits). -/
def INT_MAX : Int := 2 ^ 31 - 1

/-- Smallest value of `int` (32 bits). -/
def INT_MIN : Int := -(2 ^ 31)

/-- The conversion `(int)(v)`: the value is reduced modulo `2 ^ 32` into the
range of `int`. -/
def toInt32 (v : Int) : Int := (v + 2 ^ 31) % 2 ^ 32 - 2 ^ 31

/-- The saturation `strtol` applies to a value outside the range of `long`. -/
def clampLong (v : Int) : Int :=
  if v > LONG_MAX then LONG_MAX else if v < LONG_MIN then LONG_MIN else v

/-! ## C strings -/

/-- The terminator of a C string. -/
def NUL : Char := Char.ofNat 0

/-- Read the character at index `p` of the string `s`: index `s.length` holds
the terminator, an index beyond it lies outside the string. -/
def deref (s : List Char) (p : Nat) : Option Char :=
  if p < s.length then some (s.getD p NUL)
  else if p = s.length then some NUL
  else none

/-- Scan of `strchr` from index `i`, over the characters `s` that remain. -/
def strchr_aux (c : Char) : List Char → Nat → Option Nat
  | [], i => if c = NUL then some i else none
  | x :: xs, i =>
    if x = c then some i
    else if x = NUL then none
    else strchr_aux c xs (i + 1)

/-- The C library function `strchr`: index of the first occurrence of `c` in
the string, or `none` (the null pointer). -/
def strchr (s : List Char) (c : Char) : Option Nat := strchr_aux c s 0

/-- The C library predicate `isspace` in the C locale. -/
def isspace (c : Char) : Bool :=
  c = ' ' || (9 ≤ c.toNat && c.toNat ≤ 13)

/-- The C library predicate `isdigit`. -/
def isdigit (c : Char) : Bool := 48 ≤ c.toNat && c.toNat ≤ 57

/-- Value of a run of decimal digits, most significant digit first. -/
def digitsValue (ds : List Char) : Nat :=
  ds.foldl (fun acc c => 10 * acc + (c.toNat - 48)) 0

/-- The C library function `strtol(s + nptr, &end, 10)`: skips white space,
reads an optional sign and the longest run of decimal digits, and returns the
value, saturated to the range of `long`, with the index `end` of the first
character after the digits. Without any digit the value is `0` and `end` is
`nptr`. -/
def strtol (s : List Char) (nptr : Nat) : Int × Nat :=
  let rest := s.drop nptr
  let ws := (rest.takeWhile isspace).length
  let rest1 := rest.drop ws
  let sign : Nat := match rest1 with
    | c :: _ => if c = '-' ∨ c = '+' then 1 else 0
    | [] => 0
  let neg : Bool := match rest1 with
    | c :: _ => decide (c = '-')
    | [] => false
  let ds := (rest1.drop sign).takeWhile isdigit
  if ds = [] then (0, nptr)
  else
    (clampLong (if neg then -(digitsValue ds : Int) else (digitsValue ds : Int)),
      nptr + ws + sign + ds.length)

/-! ## Domains -/

/-- Modelled from the spec: the scope enumeration is declared in
`dash/dart/if/dart_types.h`, which is not part of the sources at hand; the
spec lists the scopes Global, Host-group, Host, NUMA, Socket, Core and Unit.
`locality.c` names only `DART_LOCALITY_SCOPE_GLOBAL`. -/
inductive dart_locality_scope_t where
  | DART_LOCALITY_SCOPE_UNDEFINED
  | DART_LOCALITY_SCOPE_GLOBAL
  | DART_LOCALITY_SCOPE_GROUP
  | DART_LOCALITY_SCOPE_NODE
  | DART_LOCALITY_SCOPE_NUMA
  | DART_LOCALITY_SCOPE_SOCKET
  | DART_LOCALITY_SCOPE_CORE
  | DART_LOCALITY_SCOPE_UNIT
  deriving DecidableEq, Repr

/-- Modelled from the spec: the hardware snapshot `dart_hwinfo_t` is declared
in a header that is not part of the sources at hand; `locality.c` only copies
it, so it is a list of opaque facts. -/
structure dart_hwinfo_t where
  facts : List Int
  deriving DecidableEq, Repr

/-- The tree node `dart_domain_locality_t`, with the fields `locality.c`
reads or writes. `parent` is the address of the parent node (`none` is the
null pointer); `domains` is the array of children the pointer `domains`
refers to (the null pointer is the empty array); `num_domains` is the `int`
child count stored next to it. -/
inductive dart_domain_locality_t where
  | mk (domain_tag : List Char) (host : List Char)
      (scope : dart_locality_scope_t) (level : Int) (parent : Option Nat)
      (num_domains : Int) (domains : List dart_domain_locality_t)
      (hwinfo : dart_hwinfo_t) (num_units : Int) (unit_ids : List Int)
      (num_nodes : Int)

namespace dart_domain_locality_t

/-- Field `domain_tag`. -/
def domain_tag : dart_domain_locality_t → List Char
  | mk t _ _ _ _ _ _ _ _ _ _ => t

/-- Field `host`. -/
def host : dart_domain_locality_t → List Char
  | mk _ h _ _ _ _ _ _ _ _ _ => h

/-- Field `scope`. -/
def scope : dart_domain_locality_t → dart_locality_scope_t
  | mk _ _ s _ _ _ _ _ _ _ _ => s

/-- Field `level`. -/
def level : dart_domain_locality_t → Int
  | mk _ _ _ l _ _ _ _ _ _ _ => l

/-- Field `parent`. -/
def parent : dart_domain_locality_t → Option Nat
  | mk _ _ _ _ p _ _ _ _ _ _ => p

/-- Field `num_domains`. -/
def num_domains : dart_domain_locality_t → Int
  | mk _ _ _ _ _ n _ _ _ _ _ => n

/-- Field `domains`. -/
def domains : dart_domain_locality_t → List dart_domain_locality_t
  | mk _ _ _ _ _ _ ds _ _ _ _ => ds

/-- Field `hwinfo`. -/
def hwinfo : dart_domain_locality_t → dart_hwinfo_t
  | mk _ _ _ _ _ _ _ h _ _ _ => h

/-- Field `num_units`. -/
def num_units : dart_domain_locality_t → Int
  | mk _ _ _ _ _ _ _ _ n _ _ => n

/-- Field `unit_ids`. -/
def unit_ids : dart_domain_locality_t → List Int
  | mk _ _ _ _ _ _ _ _ _ u _ => u

/-- Field `num_nodes`. -/
def num_nodes : dart_domain_locality_t → Int
  | mk _ _ _ _ _ _ _ _ _ _ n => n

/-- The pointer `domain->domains + idx`: the child at index `idx`, or `none`
when the index lies outside the array. -/
def child (d : dart_domain_locality_t) (idx : Int) : Option dart_domain_locality_t :=
  if 0 ≤ idx then d.domains.get? idx.toNat else none

end dart_domain_locality_t

/-! ## The registry -/

/-- The constant `DART__BASE__LOCALITY__MAX_TEAM_DOMAINS`. -/
abbrev DART__BASE__LOCALITY__MAX_TEAM_DOMAINS : Nat := 32

/-- Modelled from the spec: `dart_host_topology_t` is declared in a header
that is not part of the sources at hand; `locality.c` reads `num_nodes` only
(outside logging). `handle` tells two topology objects apart. -/
structure dart_host_topology_t where
  handle : Nat
  num_nodes : Nat
  deriving DecidableEq, Repr

/-- Modelled from the spec: `dart_unit_mapping_t` is declared in a header that
is not part of the sources at hand; `locality.c` only passes it on. `handle`
tells two mappings apart. -/
structure dart_unit_mapping_t where
  handle : Nat
  deriving DecidableEq, Repr

/-- Modelled from the spec: the per-unit record `dart_unit_locality_t` (unit
id, host name, hardware facts) is declared in a header that is not part of the
sources at hand; `locality.c` reads `host` only. -/
structure dart_unit_locality_t where
  unit : Int
  host : List Char
  hwinfo : dart_hwinfo_t
  deriving DecidableEq, Repr

/-- One of the three global tables: an array of
`DART__BASE__LOCALITY__MAX_TEAM_DOMAINS` pointers. -/
abbrev Table (α : Type) : Type := Fin DART__BASE__LOCALITY__MAX_TEAM_DOMAINS → Option α

/-- The position `team` denotes in a global table, or `none` when `team` lies
outside the array (`locality.c` itself never compares `team` with the
capacity; the model does, to tell an access inside the array from one outside
it). -/
def teamIndex (team : Int) : Option (Fin DART__BASE__LOCALITY__MAX_TEAM_DOMAINS) :=
  if h : 0 ≤ team ∧ team < (DART__BASE__LOCALITY__MAX_TEAM_DOMAINS : Int) then
    some ⟨team.toNat, by
      have h2 := h.2
      simp only [DART__BASE__LOCALITY__MAX_TEAM_DOMAINS] at h2 ⊢
      omega⟩
  else none

/-- Read `table[team]`: the slot, or `none` when `team` lies outside the
array. -/
def Table.at {α : Type} (t : Table α) (team : Int) : Option (Option α) :=
  (teamIndex team).map t

/-- A call of a collaborator that the claims observe. -/
inductive Call where
  | domain_delete (d : dart_domain_locality_t)
  | host_topology_delete (t : dart_host_topology_t)
  | unit_locality_delete (m : dart_unit_mapping_t)
  | barrier (team : Int)

/-- The process-wide state of `locality.c`: the three global tables, and the
calls of release operations and barriers made so far, oldest first. -/
structure Registry where
  host_topology_ : Table dart_host_topology_t
  unit_mapping_ : Table dart_unit_mapping_t
  global_domain_ : Table dart_domain_locality_t
  calls : List Call

/-! ## Domain tag resolver -/

/-- The loop of `dart__base__locality__domain` (lines 248 to 275), one
iteration per unit of fuel. `domain` and `dot_begin` are the loop variables
(`part_begin` is always `dot_begin + 1`; `level` is only logged); `locality`
is the value of `*locality` before the call, which an error return leaves in
place. -/
def domain_scan (domain_tag : List Char) :
    Nat → Option dart_domain_locality_t → Option Nat → Option dart_domain_locality_t →
      Outcome (Option dart_domain_locality_t)
  | 0, _, _, _ => Outcome.nofuel
  | fuel + 1, domain, dot_begin, locality =>
    match dot_begin with
    | none => Outcome.ret DART_OK domain
    | some db =>
      match deref domain_tag db with
      | none => Outcome.fault
      | some c =>
        if c = NUL then Outcome.ret DART_OK domain
        else
          match deref domain_tag (db + 1) with
          | none => Outcome.fault
          | some c1 =>
            if c1 = NUL then Outcome.ret DART_OK domain
            else
              let tag_part := (strtol domain_tag (db + 1)).1
              let dot_end := (strtol domain_tag (db + 1)).2
              let subdomain_idx := toInt32 tag_part
              match domain with
              | none => Outcome.ret DART_ERR_INVAL locality
              | some d =>
                if d.num_domains ≤ subdomain_idx then Outcome.ret DART_ERR_INVAL locality
                else
                  match d.child subdomain_idx with
                  | none => Outcome.fault
                  | some c => domain_scan domain_tag fuel (some c) (some dot_end) locality

/-- The function `dart__base__locality__domain`. `locality` is the value of
`*locality` before the call; the outcome carries its value after the call. -/
def dart__base__locality__domain (reg : Registry) (team : Int) (domain_tag : List Char)
    (locality : Option dart_domain_locality_t) : Outcome (Option dart_domain_locality_t) :=
  match teamIndex team with
  | none => Outcome.fault
  | some t =>
    domain_scan domain_tag (domain_tag.length + 1) (reg.global_domain_ t)
      (strchr domain_tag '.') locality

/-- The indices of the characters that `strtol(s + nptr, &end, 10)` examines:
the white space, the sign and the digits it passes over, and the character
that ends the number. -/
def strtol_reads (s : List Char) (nptr : Nat) : List Nat :=
  let rest := s.drop nptr
  let ws := (rest.takeWhile isspace).length
  let rest1 := rest.drop ws
  let sign : Nat := match rest1 with
    | c :: _ => if c = '-' ∨ c = '+' then 1 else 0
    | [] => 0
  let ds := (rest1.drop sign).takeWhile isdigit
  List.range' nptr (ws + sign + ds.length + 1)

/-- What a run of the loop of `dart__base__locality__domain` does: its
outcome, the indices of the tag at which a character is read, in the order of
the reads (by the loop condition, `*dot_begin` and then `*part_begin`, and by
`strtol` in the loop body), and the values of `dot_begin` with which the loop
body runs, one per iteration. -/
structure ScanTrace where
  outcome : Outcome (Option dart_domain_locality_t)
  reads : List Nat
  positions : List Nat

/-- The loop of `dart__base__locality__domain` (lines 248 to 275) as in
`domain_scan`, with the reads of the tag and the iterations of the loop body
recorded. -/
def domain_scan_traced (domain_tag : List Char) :
    Nat → Option dart_domain_locality_t → Option Nat → Option dart_domain_locality_t →
      ScanTrace
  | 0, _, _, _ => ⟨Outcome.nofuel, [], []⟩
  | fuel + 1, domain, dot_begin, locality =>
    match dot_begin with
    | none => ⟨Outcome.ret DART_OK domain, [], []⟩
    | some db =>
      match deref domain_tag db with
      | none => ⟨Outcome.fault, [db], []⟩
      | some c =>
        if c = NUL then ⟨Outcome.ret DART_OK domain, [db], []⟩
        else
          match deref domain_tag (db + 1) with
          | none => ⟨Outcome.fault, [db, db + 1], []⟩
          | some c1 =>
            if c1 = NUL then ⟨Outcome.ret DART_OK domain, [db, db + 1], []⟩
            else
              let tag_part := (strtol domain_tag (db + 1)).1
              let dot_end := (strtol domain_tag (db + 1)).2
              let part_reads := db :: (db + 1) :: strtol_reads domain_tag (db + 1)
              let subdomain_idx := toInt32 tag_part
              match domain with
              | none => ⟨Outcome.ret DART_ERR_INVAL locality, part_reads, [db]⟩
              | some d =>
                if d.num_domains ≤ subdomain_idx then
                  ⟨Outcome.ret DART_ERR_INVAL locality, part_reads, [db]⟩
                else
                  match d.child subdomain_idx with
                  | none => ⟨Outcome.fault, part_reads, [db]⟩
                  | some c =>
                    ⟨(domain_scan_traced domain_tag fuel (some c) (some dot_end)
                        locality).outcome,
                      part_reads ++
                        (domain_scan_traced domain_tag fuel (some c) (some dot_end)
                          locality).reads,
                      db ::
                        (domain_scan_traced domain_tag fuel (some c) (some dot_end)
                          locality).positions⟩

/-! ## Collaborators -/

/-- The functions, constants and build options `locality.c` takes from other
translation units and headers, none of which is part of the sources at hand.
A function with an output parameter yields its return code together with the
value the output variable holds after the call (`none` for a null pointer).
`malloc k` tells whether the allocation at site `k` of a call of
`dart__base__locality__create` succeeds: site 0 is the root domain, 1 the
array `unit_ids`, 2 the array `hosts`, 3 the host topology, `4 + u` the host
name buffer of unit `u`. `assertions` is the build option that makes
`DART_ASSERT_RETURNS` check the code returned. -/
structure Collab where
  assertions : Bool
  DART_TEAM_ALL : Int
  DART_LOCALITY_HOST_MAX_SIZE : Nat
  malloc : Nat → Bool
  dart_hwinfo : dart_ret_t × Option dart_hwinfo_t
  dart_team_size : Int → dart_ret_t × Nat
  dart__base__unit_locality__create : Int → dart_ret_t × Option dart_unit_mapping_t
  dart__base__unit_locality__at :
    Option dart_unit_mapping_t → Int → dart_ret_t × Option dart_unit_locality_t
  dart__base__host_topology__create :
    List (List Char) → Int → Option dart_unit_mapping_t → dart_ret_t × dart_host_topology_t
  dart__base__locality__create_subdomains :
    dart_domain_locality_t → dart_host_topology_t → Option dart_unit_mapping_t →
      dart_ret_t × dart_domain_locality_t
  dart__base__locality__domain_delete : dart_domain_locality_t → dart_ret_t
  dart__base__host_topology__delete : dart_host_topology_t → dart_ret_t
  dart__base__unit_locality__delete : dart_unit_mapping_t → dart_ret_t

/-- Modelled from the spec: the header `dash/dart/base/assert.h` that defines
the macro `DART_ASSERT_RETURNS(expr, expected)` is not part of the sources at
hand. The expression is evaluated in every build; with assertions enabled a
code other than the expected one ends the process, without assertions the code
is ignored. The value tells whether execution continues. -/
def DART_ASSERT_RETURNS (env : Collab) (actual expected : dart_ret_t) : Bool :=
  !env.assertions || decide (actual = expected)

/-! ## Delete and finalize -/

/-- Lines 190 to 199 of `dart__base__locality__delete`: release of the domain
tree. Yields the value of `ret` and the state after the block. -/
def delete_global_domain (env : Collab) (reg : Registry)
    (t : Fin DART__BASE__LOCALITY__MAX_TEAM_DOMAINS) : dart_ret_t × Registry :=
  match reg.global_domain_ t with
  | none => (DART_OK, reg)
  | some d =>
    let ret := env.dart__base__locality__domain_delete d
    let reg1 := { reg with calls := reg.calls ++ [Call.domain_delete d] }
    if ret ≠ DART_OK then (ret, reg1)
    else (DART_OK, { reg1 with global_domain_ := Function.update reg1.global_domain_ t none })

/-- Lines 201 to 210 of `dart__base__locality__delete`: release of the host
topology. -/
def delete_host_topology (env : Collab) (reg : Registry)
    (t : Fin DART__BASE__LOCALITY__MAX_TEAM_DOMAINS) : dart_ret_t × Registry :=
  match reg.host_topology_ t with
  | none => (DART_OK, reg)
  | some h =>
    let ret := env.dart__base__host_topology__delete h
    let reg1 := { reg with calls := reg.calls ++ [Call.host_topology_delete h] }
    if ret ≠ DART_OK then (ret, reg1)
    else (DART_OK, { reg1 with host_topology_ := Function.update reg1.host_topology_ t none })

/-- Lines 212 to 221 of `dart__base__locality__delete`: release of the unit
mapping. -/
def delete_unit_mapping (env : Collab) (reg : Registry)
    (t : Fin DART__BASE__LOCALITY__MAX_TEAM_DOMAINS) : dart_ret_t × Registry :=
  match reg.unit_mapping_ t with
  | none => (DART_OK, reg)
  | some m =>
    let ret := env.dart__base__unit_locality__delete m
    let reg1 := { reg with calls := reg.calls ++ [Call.unit_locality_delete m] }
    if ret ≠ DART_OK then (ret, reg1)
    else (DART_OK, { reg1 with unit_mapping_ := Function.update reg1.unit_mapping_ t none })

/-- The function `dart__base__locality__delete`. -/
def dart__base__locality__delete (env : Collab) (reg : Registry) (team : Int) :
    Outcome Registry :=
  match teamIndex team with
  | none => Outcome.fault
  | some t =>
    if (reg.global_domain_ t).isNone && (reg.host_topology_ t).isNone
        && (reg.unit_mapping_ t).isNone then
      Outcome.ret DART_OK reg
    else
      let s1 := delete_global_domain env reg t
      if s1.1 ≠ DART_OK then Outcome.ret s1.1 s1.2
      else
        let s2 := delete_host_topology env s1.2 t
        if s2.1 ≠ DART_OK then Outcome.ret s2.1 s2.2
        else
          let s3 := delete_unit_mapping env s2.2 t
          if s3.1 ≠ DART_OK then Outcome.ret s3.1 s3.2
          else Outcome.ret DART_OK s3.2

/-- One iteration of the loop of `dart__base__locality__finalize`: the call
`dart__base__locality__delete(t)`, whose return code is not looked at. -/
def finalize_step (env : Collab) (acc : Outcome Registry) (t : Nat) : Outcome Registry :=
  match acc with
  | Outcome.ret _ reg => dart__base__locality__delete env reg (t : Int)
  | o => o

/-- The function `dart__base__locality__finalize`: the loop over the team ids
`0 .. 31`, the barrier, and the return of `DART_OK`. -/
def dart__base__locality__finalize (env : Collab) (reg : Registry) : Outcome Registry :=
  match (List.range DART__BASE__LOCALITY__MAX_TEAM_DOMAINS).foldl (finalize_step env)
      (Outcome.ret DART_OK reg) with
  | Outcome.ret _ reg1 =>
    Outcome.ret DART_OK { reg1 with calls := reg1.calls ++ [Call.barrier env.DART_TEAM_ALL] }
  | o => o

/-! ## Create and init -/

/-- The loop of lines 129 to 136 of `dart__base__locality__create`, with `k`
iterations left at unit `u`: it collects the host name of every unit. The
code of a `ret` outcome carries no meaning here. -/
def copy_host_names (env : Collab) (unit_mapping : Option dart_unit_mapping_t) :
    Nat → Nat → List (List Char) → Outcome (List (List Char))
  | 0, _, hosts => Outcome.ret DART_OK hosts
  | k + 1, u, hosts =>
    if !env.malloc 2 then Outcome.fault
    else
      let at_u := env.dart__base__unit_locality__at unit_mapping (toInt32 (u : Int))
      if !DART_ASSERT_RETURNS env at_u.1 DART_OK then Outcome.stop
      else
        match at_u.2 with
        | none => Outcome.fault
        | some ul =>
          if !env.malloc (4 + u) then Outcome.fault
          else
            copy_host_names env unit_mapping k (u + 1)
              (hosts ++ [ul.host.take env.DART_LOCALITY_HOST_MAX_SIZE])

/-- The function `dart__base__locality__create`. -/
def dart__base__locality__create (env : Collab) (reg : Registry) (team : Int) :
    Outcome Registry :=
  if !DART_ASSERT_RETURNS env env.dart_hwinfo.1 DART_OK then Outcome.stop
  else
    -- lines 83 to 86: every slot of two of the tables is set to NULL
    let global_domain_0 : Table dart_domain_locality_t := fun _ => none
    let host_topology_0 : Table dart_host_topology_t := fun _ => none
    -- lines 88 to 91: the root is allocated and stored in the slot of the team
    match teamIndex team with
    | none => Outcome.fault
    | some t =>
      -- lines 95 to 104: the fields of the root are written
      if !env.malloc 0 then Outcome.fault
      else
        match env.dart_hwinfo.2 with
        | none => Outcome.fault
        | some hwinfo =>
          -- lines 106 to 108
          let size := env.dart_team_size team
          if !DART_ASSERT_RETURNS env size.1 DART_OK then Outcome.stop
          else
            let num_units := size.2
            -- lines 110 to 114
            if !env.malloc 1 && decide (0 < num_units) then Outcome.fault
            else
              let unit_ids := (List.range num_units).map (fun (u : Nat) => toInt32 (u : Int))
              -- lines 117 to 121
              let created := env.dart__base__unit_locality__create team
              if !DART_ASSERT_RETURNS env created.1 DART_OK then Outcome.stop
              else
                let unit_mapping := created.2
                -- lines 128 to 136
                match copy_host_names env unit_mapping num_units 0 [] with
                | Outcome.ret _ hosts =>
                  -- lines 138 to 144
                  let built := env.dart__base__host_topology__create hosts team unit_mapping
                  if !DART_ASSERT_RETURNS env built.1 DART_OK then Outcome.stop
                  else if !env.malloc 3 then Outcome.fault
                  else
                    let topo := built.2
                    -- line 147, with the fields written before
                    let root := dart_domain_locality_t.mk ['.'] []
                      dart_locality_scope_t.DART_LOCALITY_SCOPE_GLOBAL 0 none 0 [] hwinfo
                      (toInt32 (num_units : Int)) unit_ids (toInt32 (topo.num_nodes : Int))
                    -- lines 166 to 171
                    let sub := env.dart__base__locality__create_subdomains root topo unit_mapping
                    if !DART_ASSERT_RETURNS env sub.1 DART_OK then Outcome.stop
                    else
                      Outcome.ret DART_OK
                        { host_topology_ := Function.update host_topology_0 t (some topo)
                          unit_mapping_ := Function.update reg.unit_mapping_ t unit_mapping
                          global_domain_ := Function.update global_domain_0 t (some sub.2)
                          calls := reg.calls }
                | Outcome.fault => Outcome.fault
                | Outcome.stop => Outcome.stop
                | Outcome.nofuel => Outcome.nofuel

/-- The function `dart__base__locality__init`. -/
def dart__base__locality__init (env : Collab) (reg : Registry) : Outcome Registry :=
  dart__base__locality__create env reg env.DART_TEAM_ALL

/-! ## Unit locality -/

/-- The function `dart__base__locality__unit`. The outcome carries the value
of `*locality` after the call; line 293 sets it to NULL whatever it held. -/
def dart__base__locality__unit (env : Collab) (reg : Registry) (team : Int) (unit : Int) :
    Outcome (Option dart_unit_locality_t) :=
  match teamIndex team with
  | none => Outcome.fault
  | some t =>
    let found := env.dart__base__unit_locality__at (reg.unit_mapping_ t) unit
    if found.1 ≠ DART_OK then Outcome.ret found.1 none
    else Outcome.ret DART_OK found.2

/-! ## Tags, walks and well-formed trees (specification side) -/

/-- The decimal form of an index. -/
def decimal (i : Nat) : List Char := Nat.toDigits 10 i

/-- The indices `i1 .. ik`, each written in decimal after a dot: the
characters of `.i1.i2. ... .ik`. -/
def dotParts : List Nat → List Char
  | [] => []
  | i :: is => '.' :: (decimal i ++ dotParts is)

/-- The tag made of the dot-separated decimal indices `i1 .. ik`:
`.i1.i2. ... .ik.`, and `.` alone for no index. -/
def tagOf (is : List Nat) : List Char := dotParts is ++ ['.']

/-- The walk the contract of the resolver describes: start at a domain, take
child `i1`, then child `i2` of that, and so on, each index being smaller than
the child count `num_domains` of the domain it is applied to. The walk
exists where the children array really holds the child (`num_domains` does
not promise more children than the array has). -/
def descend : dart_domain_locality_t → List Nat → Option dart_domain_locality_t
  | d, [] => some d
  | d, i :: is =>
    if (i : Int) < d.num_domains then
      match d.domains.get? i with
      | some c => descend c is
      | none => none
    else none

/-- The node at the end of a path of child positions: reachability in the
tree, with no reference to `num_domains`. -/
def nodeAt : dart_domain_locality_t → List Nat → Option dart_domain_locality_t
  | d, [] => some d
  | d, i :: is =>
    match d.domains.get? i with
    | some c => nodeAt c is
    | none => none

mutual
/-- Every `num_domains` field of the tree holds a value of the C type `int`. -/
def intTyped : dart_domain_locality_t → Bool
  | dart_domain_locality_t.mk _ _ _ _ _ n ds _ _ _ _ =>
    decide (INT_MIN ≤ n) && decide (n ≤ INT_MAX) && intTypedList ds
/-- Every tree of the list satisfies `intTyped`. -/
def intTypedList : List dart_domain_locality_t → Bool
  | [] => true
  | d :: ds => intTyped d && intTypedList ds
end

mutual
/-- The tag invariant of the data model below a domain: `num_domains` is the
number of children, and the child at index `i` of a domain with tag `T` has
the tag `T` followed by the decimal form of `i` and a dot. -/
def tagInv : dart_domain_locality_t → Bool
  | dart_domain_locality_t.mk tag _ _ _ _ n ds _ _ _ _ =>
    decide (n = (ds.length : Int)) && tagInvList tag 0 ds
/-- The tag invariant for the children of a domain with tag `T`, the first of
the list being the child at index `i`. -/
def tagInvList (T : List Char) : Nat → List dart_domain_locality_t → Bool
  | _, [] => true
  | i, c :: cs =>
    decide (c.domain_tag = T ++ decimal i ++ ['.']) && tagInv c && tagInvList T (i + 1) cs
end

/-- The tag invariant of a whole tree: the root tag is `.`, and `tagInv`
holds from the root down. -/
def tagInvRoot (root : dart_domain_locality_t) : Bool :=
  decide (root.domain_tag = ['.']) && tagInv root

/-- The scan loop of the resolver runs at least once on this tag: there is a
dot, and the character after the first dot is not the terminator. -/
def hasPart (domain_tag : List Char) : Bool :=
  match strchr domain_tag '.' with
  | none => false
  | some db => decide (domain_tag.getD db NUL ≠ NUL) && decide (domain_tag.getD (db + 1) NUL ≠ NUL)

/-! ## Example data -/

/-- A domain for examples: the tag, the child count and the children are
given, the other fields are fixed. -/
def demoDomain (tag : List Char) (n : Int) (cs : List dart_domain_locality_t) :
    dart_domain_locality_t :=
  dart_domain_locality_t.mk tag [] dart_locality_scope_t.DART_LOCALITY_SCOPE_NODE 0 none
    n cs (dart_hwinfo_t.mk []) 0 [] 0

/-- The tree of the concrete scenario of the spec: a root with two children,
each with two leaves. -/
def demoRoot : dart_domain_locality_t :=
  demoDomain (tagOf []) 2
    [demoDomain (tagOf [0]) 2 [demoDomain (tagOf [0, 0]) 0 [], demoDomain (tagOf [0, 1]) 0 []],
     demoDomain (tagOf [1]) 2 [demoDomain (tagOf [1, 0]) 0 [], demoDomain (tagOf [1, 1]) 0 []]]

/-- A registry without any active team. -/
def emptyRegistry : Registry :=
  { host_topology_ := fun _ => none
    unit_mapping_ := fun _ => none
    global_domain_ := fun _ => none
    calls := [] }

/-- A registry in which team 0 is active with the tree `demoRoot`, host
topology 7 and unit mapping 9. -/
def demoRegistry : Registry :=
  { host_topology_ := fun t => if t.val = 0 then some (dart_host_topology_t.mk 7 2) else none
    unit_mapping_ := fun t => if t.val = 0 then some (dart_unit_mapping_t.mk 9) else none
    global_domain_ := fun t => if t.val = 0 then some demoRoot else none
    calls := [] }

/-- A root with a single leaf child. -/
def oneChildRoot : dart_domain_locality_t :=
  demoDomain (tagOf []) 1 [demoDomain (tagOf [0]) 0 []]

/-- A registry in which team 0 is active with the tree `oneChildRoot`. -/
def oneChildRegistry : Registry :=
  { host_topology_ := fun _ => none
    unit_mapping_ := fun _ => none
    global_domain_ := fun t => if t.val = 0 then some oneChildRoot else none
    calls := [] }


/-- The objects a call of `dart__base__locality__create` builds after it has
stored the root pointer (lines 95 to 171): the root domain as the
construction of sub-domains leaves it, the host topology and the unit mapping.
It restates the body of `dart__base__locality__create` without the registry
(see `create_eq`). -/
def create_build (env : Collab) (team : Int) :
    Outcome (dart_domain_locality_t × dart_host_topology_t × Option dart_unit_mapping_t) :=
  if !env.malloc 0 then Outcome.fault
  else
    match env.dart_hwinfo.2 with
    | none => Outcome.fault
    | some hwinfo =>
      if !DART_ASSERT_RETURNS env (env.dart_team_size team).1 DART_OK then Outcome.stop
      else if !env.malloc 1 && decide (0 < (env.dart_team_size team).2) then Outcome.fault
      else if !DART_ASSERT_RETURNS env (env.dart__base__unit_locality__create team).1 DART_OK then
        Outcome.stop
      else
        match copy_host_names env (env.dart__base__unit_locality__create team).2
            (env.dart_team_size team).2 0 [] with
        | Outcome.ret _ hosts =>
          if !DART_ASSERT_RETURNS env (env.dart__base__host_topology__create hosts team
              (env.dart__base__unit_locality__create team).2).1 DART_OK then Outcome.stop
          else if !env.malloc 3 then Outcome.fault
          else
            if !DART_ASSERT_RETURNS env (env.dart__base__locality__create_subdomains
                (dart_domain_locality_t.mk ['.'] []
                  dart_locality_scope_t.DART_LOCALITY_SCOPE_GLOBAL 0 none 0 [] hwinfo
                  (toInt32 ((env.dart_team_size team).2 : Int))
                  ((List.range (env.dart_team_size team).2).map
                    (fun (u : Nat) => toInt32 (u : Int)))
                  (toInt32 ((env.dart__base__host_topology__create hosts team
                    (env.dart__base__unit_locality__create team).2).2.num_nodes : Int)))
                (env.dart__base__host_topology__create hosts team
                  (env.dart__base__unit_locality__create team).2).2
                (env.dart__base__unit_locality__create team).2).1 DART_OK then Outcome.stop
            else
              Outcome.ret DART_OK
                ((env.dart__base__locality__create_subdomains
                  (dart_domain_locality_t.mk ['.'] []
                    dart_locality_scope_t.DART_LOCALITY_SCOPE_GLOBAL 0 none 0 [] hwinfo
                    (toInt32 ((env.dart_team_size team).2 : Int))
                    ((List.range (env.dart_team_size team).2).map
                      (fun (u : Nat) => toInt32 (u : Int)))
                    (toInt32 ((env.dart__base__host_topology__create hosts team
                      (env.dart__base__unit_locality__create team).2).2.num_nodes : Int)))
                  (env.dart__base__host_topology__create hosts team
                    (env.dart__base__unit_locality__create team).2).2
                  (env.dart__base__unit_locality__create team).2).2,
                 (env.dart__base__host_topology__create hosts team
                    (env.dart__base__unit_locality__create team).2).2,
                 (env.dart__base__unit_locality__create team).2)
        | Outcome.fault => Outcome.fault
        | Outcome.stop => Outcome.stop
        | Outcome.nofuel => Outcome.nofuel

/-! ## Observations on outcomes and registries -/

/-- The code a call returned, if it returned. -/
def Outcome.code {α : Type} : Outcome α → Option dart_ret_t
  | Outcome.ret c _ => some c
  | _ => none

/-- The state or output a call left behind, if it returned. -/
def Outcome.out {α : Type} : Outcome α → Option α
  | Outcome.ret _ a => some a
  | _ => none

/-- The registry with the three slots of one team set to NULL: the team is
inactive, every other slot and the recorded calls are as before. -/
def deactivate (reg : Registry) (t : Fin DART__BASE__LOCALITY__MAX_TEAM_DOMAINS) : Registry :=
  { host_topology_ := Function.update reg.host_topology_ t none
    unit_mapping_ := Function.update reg.unit_mapping_ t none
    global_domain_ := Function.update reg.global_domain_ t none
    calls := reg.calls }

/-- The release calls a delete of team `t` has to make: one per resource the
team holds, in the order domain tree, host topology, unit mapping. -/
def releaseCalls (reg : Registry) (t : Fin DART__BASE__LOCALITY__MAX_TEAM_DOMAINS) :
    List Call :=
  (match reg.global_domain_ t with
    | some d => [Call.domain_delete d]
    | none => []) ++
  (match reg.host_topology_ t with
    | some h => [Call.host_topology_delete h]
    | none => []) ++
  (match reg.unit_mapping_ t with
    | some m => [Call.unit_locality_delete m]
    | none => [])

/-- Collaborators for examples: assertions are enabled, every allocation and
every collaborator succeeds, a team has two units on host `A`, and the
construction of sub-domains leaves the root as it is. The three release
operations return the codes given. -/
def demoCollab (rd rh rm : dart_ret_t) : Collab :=
  { assertions := true
    DART_TEAM_ALL := 0
    DART_LOCALITY_HOST_MAX_SIZE := 30
    malloc := fun _ => true
    dart_hwinfo := (DART_OK, some (dart_hwinfo_t.mk []))
    dart_team_size := fun _ => (DART_OK, 2)
    dart__base__unit_locality__create := fun _ => (DART_OK, some (dart_unit_mapping_t.mk 10))
    dart__base__unit_locality__at := fun _ u =>
      (DART_OK, some (dart_unit_locality_t.mk u ['A'] (dart_hwinfo_t.mk [])))
    dart__base__host_topology__create := fun _ _ _ => (DART_OK, dart_host_topology_t.mk 8 1)
    dart__base__locality__create_subdomains := fun root _ _ => (DART_OK, root)
    dart__base__locality__domain_delete := fun _ => rd
    dart__base__host_topology__delete := fun _ => rh
    dart__base__unit_locality__delete := fun _ => rm }

/-- The host names `dart__base__locality__create` collects in the loop of
lines 129 to 136 when every lookup finds a record: for each unit
`0, ..., n - 1` of the team the host name of its record in the unit mapping
created for the team, cut to the size of the buffer. -/
def hostNames (env : Collab) (team : Int) : List (List Char) :=
  (List.range (env.dart_team_size team).2).map (fun (u : Nat) =>
    match (env.dart__base__unit_locality__at
        (env.dart__base__unit_locality__create team).2 (toInt32 (u : Int))).2 with
    | some ul => ul.host.take env.DART_LOCALITY_HOST_MAX_SIZE
    | none => [])

/-- The host topology that `dart__base__host_topology__create` builds when
`dart__base__locality__create` calls it for the team (lines 138 to 143). -/
def builtTopology (env : Collab) (team : Int) : dart_host_topology_t :=
  (env.dart__base__host_topology__create (hostNames env team) team
    (env.dart__base__unit_locality__create team).2).2

/-- The root domain as `dart__base__locality__create` has written it (lines
95 to 114 and 147) when it hands it to the construction of sub-domains. -/
def initialRoot (env : Collab) (team : Int) (hwinfo : dart_hwinfo_t) :
    dart_domain_locality_t :=
  dart_domain_locality_t.mk ['.'] [] dart_locality_scope_t.DART_LOCALITY_SCOPE_GLOBAL 0 none
    0 [] hwinfo (toInt32 ((env.dart_team_size team).2 : Int))
    ((List.range (env.dart_team_size team).2).map (fun (u : Nat) => toInt32 (u : Int)))
    (toInt32 ((builtTopology env team).num_nodes : Int))

/-- The root domain as the construction of sub-domains leaves it when
`dart__base__locality__create` calls it for the team (lines 166 to 171). -/
def builtRoot (env : Collab) (team : Int) (hwinfo : dart_hwinfo_t) :
    dart_domain_locality_t :=
  (env.dart__base__locality__create_subdomains (initialRoot env team hwinfo)
    (builtTopology env team) (env.dart__base__unit_locality__create team).2).2

/-- The collaborators succeed on the calls that `dart__base__locality__create`
makes for the team: `dart_hwinfo`, `dart_team_size` and the unit locality
exchange return `DART_OK`; every allocation succeeds; the lookup in the unit
mapping created for the team returns `DART_OK` and a record for each of the
units `0, ..., n - 1` of the team; the host topology construction returns
`DART_OK` on the host names of these records; and `dart_hwinfo` has set the
pointer `hwinfo`, with which the construction of sub-domains returns `DART_OK`
on the root written by create. -/
def collaboratorsSucceed (env : Collab) (team : Int) : Prop :=
  env.dart_hwinfo.1 = DART_OK ∧
  (∀ k, env.malloc k = true) ∧
  (env.dart_team_size team).1 = DART_OK ∧
  (env.dart__base__unit_locality__create team).1 = DART_OK ∧
  (∀ u : Nat, u < (env.dart_team_size team).2 →
    (env.dart__base__unit_locality__at (env.dart__base__unit_locality__create team).2
      (toInt32 (u : Int))).1 = DART_OK ∧
    (env.dart__base__unit_locality__at (env.dart__base__unit_locality__create team).2
      (toInt32 (u : Int))).2 ≠ none) ∧
  (env.dart__base__host_topology__create (hostNames env team) team
    (env.dart__base__unit_locality__create team).2).1 = DART_OK ∧
  ∃ hwinfo, env.dart_hwinfo.2 = some hwinfo ∧
    (env.dart__base__locality__create_subdomains (initialRoot env team hwinfo)
      (builtTopology env team) (env.dart__base__unit_locality__create team).2).1 = DART_OK

/-- Modelled from the spec: the function
`dart__base__locality__create_subdomains` is defined in a file that is not
part of the sources at hand. By the spec the tree builder is given the root
(scope Global, holding all unit ids of the team) and partitions it into
children: it receives the pointer to the root, adds children below it and
leaves the identifying fields of the root as `dart__base__locality__create`
wrote them. -/
def keepsRootFields (env : Collab) : Prop :=
  ∀ root topo m,
    (env.dart__base__locality__create_subdomains root topo m).2.scope = root.scope ∧
    (env.dart__base__locality__create_subdomains root topo m).2.level = root.level ∧
    (env.dart__base__locality__create_subdomains root topo m).2.parent = root.parent ∧
    (env.dart__base__locality__create_subdomains root topo m).2.host = root.host ∧
    (env.dart__base__locality__create_subdomains root topo m).2.domain_tag = root.domain_tag ∧
    (env.dart__base__locality__create_subdomains root topo m).2.num_units = root.num_units ∧
    (env.dart__base__locality__create_subdomains root topo m).2.unit_ids = root.unit_ids

/-- The three release operations succeed on every resource. -/
def releasesSucceed (env : Collab) : Prop :=
  (∀ d, env.dart__base__locality__domain_delete d = DART_OK) ∧
  (∀ h, env.dart__base__host_topology__delete h = DART_OK) ∧
  (∀ m, env.dart__base__unit_locality__delete m = DART_OK)

/-- Modelled from the spec: the lookup `dart__base__unit_locality__at` is
declared in `dash/dart/base/internal/unit_locality.h` and defined in a file
that is not part of the sources at hand. By the spec it returns the unit
locality record of the unit, and fails with the "unknown unit" error when the
team is inactive (the mapping is NULL) or the unit id is outside the range of
the team. `records m` lists the records of the mapping `m` by unit id, and
`unknown_unit` is the error code. -/
def unit_locality_at_spec (records : dart_unit_mapping_t → List dart_unit_locality_t)
    (unknown_unit : dart_ret_t) (mapping : Option dart_unit_mapping_t) (unit : Int) :
    dart_ret_t × Option dart_unit_locality_t :=
  match mapping with
  | none => (unknown_unit, none)
  | some m =>
    if 0 ≤ unit ∧ unit < ((records m).length : Int) then (DART_OK, (records m).get? unit.toNat)
    else (unknown_unit, none)

/-- The team id is in the state Uninitialized: its three slots are NULL. -/
def uninitialized (reg : Registry) (t : Fin DART__BASE__LOCALITY__MAX_TEAM_DOMAINS) : Prop :=
  reg.global_domain_ t = none ∧ reg.host_topology_ t = none ∧ reg.unit_mapping_ t = none

/-- The three slots of a team: domain tree, host topology, unit mapping. -/
def slots (reg : Registry) (t : Fin DART__BASE__LOCALITY__MAX_TEAM_DOMAINS) :
    Option dart_domain_locality_t × Option dart_host_topology_t × Option dart_unit_mapping_t :=
  (reg.global_domain_ t, reg.host_topology_ t, reg.unit_mapping_ t)

/-- The registry that a call of `dart__base__locality__delete` leaves behind,
whatever code the call returns. -/
def afterDelete (env : Collab) (reg : Registry) (team : Int) : Registry :=
  match dart__base__locality__delete env reg team with
  | Outcome.ret _ reg1 => reg1
  | _ => reg

/-- The registry after a delete of each team id of the list, in the order of
the list, without regard to the codes returned. -/
def afterDeletes (env : Collab) (reg : Registry) (teams : List Nat) : Registry :=
  teams.foldl (fun r (t : Nat) => afterDelete env r (t : Int)) reg

/-! ## More example data -/

/-- The records of the unit mapping of the examples: two units on host `A`. -/
def demoRecords (_ : dart_unit_mapping_t) : List dart_unit_locality_t :=
  [dart_unit_locality_t.mk 0 ['A'] (dart_hwinfo_t.mk []),
   dart_unit_locality_t.mk 1 ['A'] (dart_hwinfo_t.mk [])]

/-- Collaborators whose unit lookup is the one modelled from the spec, on the
records `demoRecords`. -/
def lookupCollab : Collab :=
  { demoCollab DART_OK DART_OK DART_OK with
    dart__base__unit_locality__at := unit_locality_at_spec demoRecords DART_ERR_INVAL }

/-- Collaborators that succeed like `lookupCollab`, with the lookup modelled
from the spec, and build other objects: host topology 18 and unit mapping 20. -/
def secondCollab : Collab :=
  { lookupCollab with
    dart__base__unit_locality__create := fun _ => (DART_OK, some (dart_unit_mapping_t.mk 20))
    dart__base__host_topology__create := fun _ _ _ => (DART_OK, dart_host_topology_t.mk 18 1) }

/-! ## Lemmas on characters, digits and the number parser -/

theorem digitChar_isdigit (k : Nat) (h : k < 10) :
    isdigit (Nat.digitChar k) = true ∧ (Nat.digitChar k).toNat - 48 = k := by
  interval_cases k <;> decide

theorem deref_append (pre : List Char) (c : Char) (rest : List Char) :
    deref (pre ++ c :: rest) pre.length = some c := by
  induction pre with
  | nil => simp [deref]
  | cons x xs ih =>
    simp only [deref] at ih ⊢
    simpa using ih

theorem deref_end (s : List Char) : deref s s.length = some NUL := by
  simp [deref]

theorem digitsValue_append (l : List Char) (c : Char) :
    digitsValue (l ++ [c]) = 10 * digitsValue l + (c.toNat - 48) := by
  simp [digitsValue, List.foldl_append]

theorem toDigitsCore_spec (fuel : Nat) : ∀ (n : Nat) (ds : List Char), n < fuel →
    ∃ l, Nat.toDigitsCore 10 fuel n ds = l ++ ds ∧ l ≠ [] ∧
      (∀ c ∈ l, isdigit c = true) ∧ digitsValue l = n := by
  induction fuel with
  | zero => intro n ds h; omega
  | succ f ih =>
    intro n ds h
    have hd := digitChar_isdigit (n % 10) (Nat.mod_lt _ (by decide))
    by_cases h0 : n / 10 = 0
    · refine ⟨[Nat.digitChar (n % 10)], ?_, by simp, ?_, ?_⟩
      · simp [Nat.toDigitsCore, h0]
      · intro c hc
        simp at hc
        rw [hc]; exact hd.1
      · simp [digitsValue, hd.2]
        omega
    · have hlt : n / 10 < f := by omega
      obtain ⟨l, hl, hne, hdig, hval⟩ := ih (n / 10) (Nat.digitChar (n % 10) :: ds) hlt
      refine ⟨l ++ [Nat.digitChar (n % 10)], ?_, by simp, ?_, ?_⟩
      · simp [Nat.toDigitsCore, h0, hl]
      · intro c hc
        rcases List.mem_append.mp hc with h1 | h1
        · exact hdig c h1
        · simp at h1; rw [h1]; exact hd.1
      · rw [digitsValue_append, hval, hd.2]
        omega

theorem decimal_spec (i : Nat) :
    decimal i ≠ [] ∧ (∀ c ∈ decimal i, isdigit c = true) ∧ digitsValue (decimal i) = i := by
  obtain ⟨l, hl, hne, hdig, hval⟩ := toDigitsCore_spec (i + 1) i [] (Nat.lt_succ_self i)
  have : decimal i = l := by simpa [decimal, Nat.toDigits] using hl
  rw [this]; exact ⟨hne, hdig, hval⟩


theorem isdigit_not_other (c : Char) (h : isdigit c = true) :
    isspace c = false ∧ c ≠ '-' ∧ c ≠ '+' ∧ c ≠ NUL ∧ c ≠ '.' := by
  simp only [isdigit, Bool.and_eq_true, decide_eq_true_eq] at h
  refine ⟨?_, ?_, ?_, ?_, ?_⟩
  · simp only [isspace, Bool.or_eq_false_iff, decide_eq_false_iff_not, Bool.and_eq_false_iff]
    constructor
    · intro hc; rw [hc] at h; revert h; decide
    · right; omega
  all_goals (intro hc; rw [hc] at h; revert h; decide)

theorem takeWhile_digits (ds rest : List Char) (hdig : ∀ c ∈ ds, isdigit c = true)
    (hrest : ∀ c, rest.head? = some c → isdigit c = false) :
    (ds ++ rest).takeWhile isdigit = ds := by
  induction ds with
  | nil =>
    cases rest with
    | nil => rfl
    | cons r rs => simp [List.takeWhile, hrest r (by simp)]
  | cons d ds ih =>
    have hd := hdig d (by simp)
    rw [List.cons_append, List.takeWhile_cons, hd]
    simp only [if_true]
    rw [ih (fun c hc => hdig c (by simp [hc]))]

theorem strtol_digits (s : List Char) (p : Nat) (ds rest : List Char)
    (hdrop : s.drop p = ds ++ rest) (hne : ds ≠ [])
    (hdig : ∀ c ∈ ds, isdigit c = true)
    (hrest : ∀ c, rest.head? = some c → isdigit c = false) :
    strtol s p = (clampLong (digitsValue ds), p + ds.length) := by
  cases ds with
  | nil => exact absurd rfl hne
  | cons d ds =>
    have hd := isdigit_not_other d (hdig d (by simp))
    have htw := takeWhile_digits (d :: ds) rest hdig hrest
    simp only [List.cons_append] at htw
    simp only [strtol, hdrop, List.cons_append, List.takeWhile, hd.1, List.length_nil,
      List.drop_zero, hd.2.1, hd.2.2.1, or_self, if_false, htw, decide_False]
    simp


theorem toInt32_clampLong_nat (i : Nat) (h : (i : Int) ≤ INT_MAX) :
    toInt32 (clampLong (i : Int)) = (i : Int) := by
  simp only [INT_MAX] at h
  have h1 : ¬ ((i : Int) > LONG_MAX) := by simp only [LONG_MAX]; omega
  have h2 : ¬ ((i : Int) < LONG_MIN) := by simp only [LONG_MIN]; omega
  simp only [clampLong, h1, h2, if_false, toInt32]
  omega

theorem intTypedList_mem (ds : List dart_domain_locality_t) (h : intTypedList ds = true) :
    ∀ c ∈ ds, intTyped c = true := by
  induction ds with
  | nil => intro c hc; cases hc
  | cons d ds ih =>
    simp only [intTypedList, Bool.and_eq_true] at h
    intro c hc
    rcases List.mem_cons.mp hc with h1 | h1
    · rw [h1]; exact h.1
    · exact ih h.2 c h1

theorem intTyped_spec (d : dart_domain_locality_t) (h : intTyped d = true) :
    INT_MIN ≤ d.num_domains ∧ d.num_domains ≤ INT_MAX ∧ ∀ c ∈ d.domains, intTyped c = true := by
  cases d with
  | mk t ho s l p n ds hw nu ui nn =>
    simp only [intTyped, Bool.and_eq_true, decide_eq_true_eq] at h
    exact ⟨h.1.1, h.1.2, intTypedList_mem ds h.2⟩


theorem dotParts_head (is : List Nat) (rest : List Char)
    (hrest : ∀ c, rest.head? = some c → isdigit c = false) :
    ∀ c, (dotParts is ++ rest).head? = some c → isdigit c = false := by
  cases is with
  | nil => simpa [dotParts] using hrest
  | cons i is =>
    intro c hc
    simp [dotParts] at hc
    rw [← hc]; decide

theorem scan_walk : ∀ (is : List Nat) (pre rest : List Char) (d n : dart_domain_locality_t)
    (f : Nat) (loc : Option dart_domain_locality_t),
    intTyped d = true → descend d is = some n →
    (∀ c, rest.head? = some c → isdigit c = false) →
    domain_scan (pre ++ dotParts is ++ rest) (f + is.length) (some d) (some pre.length) loc
      = domain_scan (pre ++ dotParts is ++ rest) f (some n)
          (some (pre ++ dotParts is).length) loc := by
  intro is
  induction is with
  | nil =>
    intro pre rest d n f loc _ hdesc _
    simp only [descend, Option.some.injEq] at hdesc
    simp [dotParts, hdesc]
  | cons i is ih =>
    intro pre rest d n f loc hty hdesc hrest
    obtain ⟨hne, hdig, hval⟩ := decimal_spec i
    obtain ⟨hmin, hmax, hch⟩ := intTyped_spec d hty
    simp only [descend] at hdesc
    split at hdesc
    swap
    · cases hdesc
    rename_i hlt
    split at hdesc
    swap
    · cases hdesc
    rename_i c hc
    have hc1 : d.domains[i]? = some c := by simpa using hc
    have hcty : intTyped c = true := hch c (List.getElem?_mem hc1)
    have htag : pre ++ dotParts (i :: is) ++ rest
        = (pre ++ ['.']) ++ (decimal i ++ (dotParts is ++ rest)) := by simp [dotParts]
    have h1 : deref (pre ++ dotParts (i :: is) ++ rest) pre.length = some '.' := by
      have := deref_append pre '.' (decimal i ++ (dotParts is ++ rest))
      simpa [dotParts] using this
    obtain ⟨x, xs, hx⟩ := List.exists_cons_of_ne_nil hne
    have hxd : isdigit x = true := hdig x (by rw [hx]; simp)
    have h2 : deref (pre ++ dotParts (i :: is) ++ rest) (pre.length + 1) = some x := by
      have := deref_append (pre ++ ['.']) x (xs ++ (dotParts is ++ rest))
      simpa [dotParts, hx] using this
    have h3 : strtol (pre ++ dotParts (i :: is) ++ rest) (pre.length + 1)
        = (clampLong (digitsValue (decimal i)), pre.length + 1 + (decimal i).length) := by
      apply strtol_digits _ _ (decimal i) (dotParts is ++ rest) _ hne hdig
        (dotParts_head is rest hrest)
      rw [htag]
      have hl : pre.length + 1 = (pre ++ ['.']).length := by simp
      rw [hl, List.drop_left]
    have h4 : toInt32 (clampLong (digitsValue (decimal i))) = (i : Int) := by
      rw [hval]; exact toInt32_clampLong_nat i (by omega)
    have h5 : d.child (i : Int) = some c := by
      simp [dart_domain_locality_t.child, hc1]
    have h6 : pre ++ dotParts (i :: is) ++ rest
        = (pre ++ '.' :: decimal i) ++ dotParts is ++ rest := by simp [dotParts]
    have h7 : pre.length + 1 + (decimal i).length = (pre ++ '.' :: decimal i).length := by
      simp only [List.length_append, List.length_cons]; omega
    have h8 : (pre ++ dotParts (i :: is)).length = (pre ++ '.' :: decimal i ++ dotParts is).length := by
      simp [dotParts]
    have hrec := ih (pre ++ '.' :: decimal i) rest c n f loc hcty hdesc hrest
    rw [← h6, ← h7, ← h8] at hrec
    have hf : f + (i :: is).length = (f + is.length) + 1 := by simp; omega
    rw [hf]
    simp only [domain_scan, h1, h2, h3, h4, h5]
    rw [if_neg (by decide), if_neg (isdigit_not_other x hxd).2.2.2.1, if_neg (by omega)]
    exact hrec

theorem strchr_tagOf (is : List Nat) (rest : List Char) :
    strchr (dotParts is ++ '.' :: rest) '.' = some 0 := by
  cases is <;> simp [strchr, strchr_aux, dotParts]

theorem length_le_dotParts (is : List Nat) : is.length ≤ (dotParts is).length := by
  induction is with
  | nil => simp
  | cons i is ih => simp [dotParts]; omega

theorem scan_last_dot (pre : List Char) (f : Nat) (dom loc : Option dart_domain_locality_t) :
    domain_scan (pre ++ ['.']) (f + 1) dom (some pre.length) loc = Outcome.ret DART_OK dom := by
  have h1 : deref (pre ++ ['.']) pre.length = some '.' := deref_append pre '.' []
  have h2 : deref (pre ++ ['.']) (pre.length + 1) = some NUL := by
    have := deref_end (pre ++ ['.'])
    simpa using this
  simp only [domain_scan, h1, h2, if_true]
  rw [if_neg (by decide)]


theorem teamIndex_of_at {α : Type} (tbl : Table α) (team : Int) (v : Option α)
    (h : tbl.at team = some v) : ∃ t, teamIndex team = some t ∧ tbl t = v := by
  unfold Table.at at h
  cases ht : teamIndex team with
  | none => rw [ht] at h; cases h
  | some t =>
    rw [ht] at h
    simp only [Option.map_some', Option.some.injEq] at h
    exact ⟨t, rfl, h⟩

theorem domain_resolves (reg : Registry) (team : Int) (root n : dart_domain_locality_t)
    (is : List Nat) (loc : Option dart_domain_locality_t)
    (hroot : reg.global_domain_.at team = some (some root))
    (hty : intTyped root = true) (hdesc : descend root is = some n) :
    dart__base__locality__domain reg team (tagOf is) loc = Outcome.ret DART_OK (some n) := by
  obtain ⟨t, ht, hslot⟩ := teamIndex_of_at _ _ _ hroot
  have hs : strchr (tagOf is) '.' = some 0 := strchr_tagOf is []
  have hlen : (tagOf is).length + 1 = ((dotParts is).length + 1 - is.length) + 1 + is.length := by
    have := length_le_dotParts is
    simp [tagOf]; omega
  have hw := scan_walk is [] ['.'] root n (((dotParts is).length + 1 - is.length) + 1) loc hty hdesc
    (by intro c hc; simp at hc; rw [← hc]; decide)
  simp only [dart__base__locality__domain, ht, hslot, hs, hlen]
  simp only [List.nil_append, List.length_nil] at hw
  simp only [tagOf]
  rw [hw]
  exact scan_last_dot (dotParts is) _ (some n) loc

/-! ## Claims on the tag resolver -/

/-- C1: for an active team whose root is stored in the registry, and a tag
made of the dot-separated decimal indices `i1 .. ik`, the resolver returns
`DART_OK` and outputs the domain reached from the root by taking child `i1`,
then child `i2`, and so on, each index being smaller than the child count of
the domain it is applied to; the tag `.` alone outputs the root itself. -/
theorem domain_follows_tag (reg : Registry) (team : Int) (root n : dart_domain_locality_t)
    (is : List Nat) (loc : Option dart_domain_locality_t)
    (hroot : reg.global_domain_.at team = some (some root))
    (hty : intTyped root = true) (hdesc : descend root is = some n) :
    dart__base__locality__domain reg team (tagOf is) loc = Outcome.ret DART_OK (some n) ∧
    dart__base__locality__domain reg team ['.'] loc = Outcome.ret DART_OK (some root) :=
  ⟨domain_resolves reg team root n is loc hroot hty hdesc,
   domain_resolves reg team root root [] loc hroot hty rfl⟩

/-- Witness of C1: the tag `.0.1.` on the tree of the concrete scenario. -/
theorem domain_follows_tag_witness :
    demoRegistry.global_domain_.at 0 = some (some demoRoot) ∧
    intTyped demoRoot = true ∧
    descend demoRoot [0, 1] = some (demoDomain (tagOf [0, 1]) 0 []) ∧
    (dart__base__locality__domain demoRegistry 0 (tagOf [0, 1]) none
        = Outcome.ret DART_OK (some (demoDomain (tagOf [0, 1]) 0 [])) ∧
      dart__base__locality__domain demoRegistry 0 ['.'] none
        = Outcome.ret DART_OK (some demoRoot)) :=
  ⟨rfl, by decide, rfl,
    domain_follows_tag demoRegistry 0 demoRoot (demoDomain (tagOf [0, 1]) 0 []) [0, 1] none
      rfl (by decide) rfl⟩


/-! ## One iteration of the scan, and tags without a domain -/

theorem scan_step (pre : List Char) (i : Nat) (rest : List Char)
    (hrest : ∀ c, rest.head? = some c → isdigit c = false) (f : Nat)
    (dom loc : Option dart_domain_locality_t) :
    domain_scan (pre ++ '.' :: decimal i ++ rest) (f + 1) dom (some pre.length) loc
      = match dom with
        | none => Outcome.ret DART_ERR_INVAL loc
        | some d =>
          if d.num_domains ≤ toInt32 (clampLong (i : Int)) then Outcome.ret DART_ERR_INVAL loc
          else
            match d.child (toInt32 (clampLong (i : Int))) with
            | none => Outcome.fault
            | some c =>
              domain_scan (pre ++ '.' :: decimal i ++ rest) f (some c)
                (some (pre.length + 1 + (decimal i).length)) loc := by
  obtain ⟨hne, hdig, hval⟩ := decimal_spec i
  have htag : pre ++ '.' :: decimal i ++ rest = (pre ++ ['.']) ++ (decimal i ++ rest) := by simp
  have h1 : deref (pre ++ '.' :: decimal i ++ rest) pre.length = some '.' := by
    have := deref_append pre '.' (decimal i ++ rest)
    simpa using this
  obtain ⟨x, xs, hx⟩ := List.exists_cons_of_ne_nil hne
  have hxd : isdigit x = true := hdig x (by rw [hx]; simp)
  have h2 : deref (pre ++ '.' :: decimal i ++ rest) (pre.length + 1) = some x := by
    have := deref_append (pre ++ ['.']) x (xs ++ rest)
    simpa [hx] using this
  have h3 : strtol (pre ++ '.' :: decimal i ++ rest) (pre.length + 1)
      = (clampLong (i : Int), pre.length + 1 + (decimal i).length) := by
    have := strtol_digits (pre ++ '.' :: decimal i ++ rest) (pre.length + 1) (decimal i) rest
      (by
        rw [htag]
        have hl : pre.length + 1 = (pre ++ ['.']).length := by simp
        rw [hl, List.drop_left]) hne hdig hrest
    rw [this, hval]
  simp only [domain_scan, h1, h2, h3]
  rw [if_neg (by decide), if_neg (isdigit_not_other x hxd).2.2.2.1]

theorem dotParts_append (a b : List Nat) : dotParts (a ++ b) = dotParts a ++ dotParts b := by
  induction a with
  | nil => simp [dotParts]
  | cons i is ih => simp [dotParts, ih]

theorem domain_rejects_index (reg : Registry) (team : Int) (root d : dart_domain_locality_t)
    (is : List Nat) (i : Nat) (more : List Nat) (loc : Option dart_domain_locality_t)
    (hroot : reg.global_domain_.at team = some (some root))
    (hty : intTyped root = true) (hdesc : descend root is = some d)
    (hge : d.num_domains ≤ (i : Int)) (hint : (i : Int) ≤ INT_MAX) :
    dart__base__locality__domain reg team (tagOf (is ++ i :: more)) loc
      = Outcome.ret DART_ERR_INVAL loc := by
  obtain ⟨t, ht, hslot⟩ := teamIndex_of_at _ _ _ hroot
  have htag : tagOf (is ++ i :: more)
      = [] ++ dotParts is ++ ('.' :: decimal i ++ (dotParts more ++ ['.'])) := by
    simp [tagOf, dotParts_append, dotParts]
  have hs : strchr (tagOf (is ++ i :: more)) '.' = some 0 := strchr_tagOf _ []
  have hrest : ∀ c, (dotParts more ++ ['.']).head? = some c → isdigit c = false :=
    dotParts_head more ['.'] (by intro c hc; simp at hc; rw [← hc]; decide)
  have hrest2 : ∀ c, ('.' :: decimal i ++ (dotParts more ++ ['.'])).head? = some c →
      isdigit c = false := by
    intro c hc; simp at hc; rw [← hc]; decide
  obtain ⟨F, hF⟩ : ∃ F, (tagOf (is ++ i :: more)).length + 1 = F + 1 + is.length := by
    have := length_le_dotParts is
    refine ⟨(tagOf (is ++ i :: more)).length - is.length, ?_⟩
    rw [htag]; simp only [List.length_append, List.nil_append]; omega
  have hw := scan_walk is [] ('.' :: decimal i ++ (dotParts more ++ ['.'])) root d
    (F + 1) loc hty hdesc hrest2
  have hst := scan_step (dotParts is) i (dotParts more ++ ['.']) hrest F (some d) loc
  have hnarrow := toInt32_clampLong_nat i hint
  simp only [dart__base__locality__domain, ht, hslot, hs]
  rw [hF, htag]
  simp only [List.length_nil, List.nil_append] at hw ⊢
  rw [hw]
  rw [List.append_assoc] at hst
  rw [hst, hnarrow]
  simp only [hge, if_true]

/-! ## Trees with the tag invariant -/

theorem tagInvList_get (T : List Char) : ∀ (cs : List dart_domain_locality_t) (k j : Nat)
    (c : dart_domain_locality_t), tagInvList T k cs = true → cs.get? j = some c →
    c.domain_tag = T ++ decimal (k + j) ++ ['.'] ∧ tagInv c = true := by
  intro cs
  induction cs with
  | nil => intro k j c _ hc; cases hc
  | cons x xs ih =>
    intro k j c h hc
    simp only [tagInvList, Bool.and_eq_true, decide_eq_true_eq] at h
    cases j with
    | zero =>
      simp only [List.get?_cons_zero, Option.some.injEq] at hc
      rw [← hc]
      exact ⟨h.1.1, h.1.2⟩
    | succ j =>
      simp only [List.get?_cons_succ] at hc
      have := ih (k + 1) j c h.2 hc
      have e : k + 1 + j = k + (j + 1) := by omega
      rw [e] at this
      exact this

theorem tagInv_spec (d : dart_domain_locality_t) (h : tagInv d = true) :
    d.num_domains = (d.domains.length : Int) ∧
    ∀ (j : Nat) (c : dart_domain_locality_t), d.domains.get? j = some c →
      c.domain_tag = d.domain_tag ++ decimal j ++ ['.'] ∧ tagInv c = true := by
  cases d with
  | mk t ho s l p n ds hw nu ui nn =>
    simp only [tagInv, Bool.and_eq_true, decide_eq_true_eq] at h
    refine ⟨h.1, ?_⟩
    intro j c hc
    have := tagInvList_get t ds 0 j c h.2 hc
    simpa using this

theorem tagOf_snoc (pre : List Nat) (i : Nat) :
    tagOf (pre ++ [i]) = tagOf pre ++ decimal i ++ ['.'] := by
  simp [tagOf, dotParts_append, dotParts]

theorem tagInv_walk : ∀ (path : List Nat) (d n : dart_domain_locality_t) (pre : List Nat),
    tagInv d = true → d.domain_tag = tagOf pre → nodeAt d path = some n →
    descend d path = some n ∧ n.domain_tag = tagOf (pre ++ path) := by
  intro path
  induction path with
  | nil =>
    intro d n pre _ htag hn
    simp only [nodeAt, Option.some.injEq] at hn
    rw [← hn]
    exact ⟨rfl, by simpa using htag⟩
  | cons i is ih =>
    intro d n pre hinv htag hn
    obtain ⟨hnum, hch⟩ := tagInv_spec d hinv
    simp only [nodeAt] at hn
    split at hn
    swap
    · cases hn
    rename_i c hc
    obtain ⟨hctag, hcinv⟩ := hch i c hc
    have hlt : i < d.domains.length := by
      have hc1 : d.domains[i]? = some c := by simpa using hc
      exact (List.getElem?_eq_some_iff.mp hc1).1
    have hrec := ih c n (pre ++ [i]) hcinv (by rw [hctag, htag, tagOf_snoc]) hn
    constructor
    · simp only [descend, hc]
      rw [if_pos (by rw [hnum]; exact_mod_cast hlt)]
      exact hrec.1
    · simpa using hrec.2


theorem deref_le (s : List Char) (p : Nat) (h : p ≤ s.length) :
    deref s p = some (s.getD p NUL) := by
  unfold deref
  by_cases h1 : p < s.length
  · simp [h1]
  · have h2 : p = s.length := by omega
    simp [h2]

theorem strchr_aux_bound (c : Char) : ∀ (s : List Char) (i r : Nat), c ≠ NUL →
    strchr_aux c s i = some r → i ≤ r ∧ r < i + s.length := by
  intro s
  induction s with
  | nil => intro i r hc h; simp [strchr_aux, hc] at h
  | cons x xs ih =>
    intro i r hc h
    simp only [strchr_aux] at h
    split at h
    · simp only [Option.some.injEq] at h
      simp only [List.length_cons]; omega
    · split at h
      · cases h
      · have := ih (i + 1) r hc h
        simp only [List.length_cons]; omega

theorem scan_inactive (domain_tag : List Char) (f : Nat) (loc : Option dart_domain_locality_t) :
    domain_scan domain_tag (f + 1) none (strchr domain_tag '.') loc
      = if hasPart domain_tag = true then Outcome.ret DART_ERR_INVAL loc
        else Outcome.ret DART_OK none := by
  cases hs : strchr domain_tag '.' with
  | none => simp [domain_scan, hasPart, hs]
  | some db =>
    have hb := strchr_aux_bound '.' domain_tag 0 db (by decide) hs
    have h1 := deref_le domain_tag db (by omega)
    have h2 := deref_le domain_tag (db + 1) (by omega)
    simp only [domain_scan, h1, h2, hasPart, hs, Bool.and_eq_true, decide_eq_true_eq]
    by_cases c1 : domain_tag.getD db NUL = NUL
    · rw [if_pos c1, if_neg (fun h => h.1 c1)]
    · by_cases c2 : domain_tag.getD (db + 1) NUL = NUL
      · rw [if_neg c1, if_pos c2, if_neg (fun h => h.2 c2)]
      · rw [if_neg c1, if_neg c2, if_pos ⟨c1, c2⟩]

/-- C2, at the failing input: the root of team 0 has one child, the index
`4294967296` of the tag `.4294967296.` is not smaller than that child count,
and yet the resolver returns `DART_OK` and writes the child at index 0 to the
output, because the conversion of the parsed `long` to `int` wraps the index
to 0 before it is compared with `num_domains`. -/
theorem domain_accepts_wrapped_index :
    oneChildRegistry.global_domain_.at 0 = some (some oneChildRoot) ∧
    oneChildRoot.num_domains ≤ ((4294967296 : Nat) : Int) ∧
    dart__base__locality__domain oneChildRegistry 0 (tagOf [4294967296]) none
      = Outcome.ret DART_OK (some (demoDomain (tagOf [0]) 0 [])) :=
  ⟨rfl, by decide, rfl⟩

/-- C3: tag round trip. In a tree stored in the registry that satisfies the
tag invariant of the data model, the resolver applied to the tag of a node
reachable from the root returns `DART_OK` and outputs that node. -/
theorem tag_round_trip (reg : Registry) (team : Int) (root n : dart_domain_locality_t)
    (path : List Nat) (loc : Option dart_domain_locality_t)
    (hroot : reg.global_domain_.at team = some (some root))
    (hinv : tagInvRoot root = true) (hty : intTyped root = true)
    (hn : nodeAt root path = some n) :
    dart__base__locality__domain reg team n.domain_tag loc = Outcome.ret DART_OK (some n) := by
  simp only [tagInvRoot, Bool.and_eq_true, decide_eq_true_eq] at hinv
  obtain ⟨hdesc, htag⟩ := tagInv_walk path root n [] hinv.2 (by rw [hinv.1]; rfl) hn
  rw [htag, List.nil_append]
  exact domain_resolves reg team root n path loc hroot hty hdesc

/-- Witness of C3: the leaf at path 1, 0 of the tree of the concrete
scenario. -/
theorem tag_round_trip_witness :
    demoRegistry.global_domain_.at 0 = some (some demoRoot) ∧
    tagInvRoot demoRoot = true ∧ intTyped demoRoot = true ∧
    nodeAt demoRoot [1, 0] = some (demoDomain (tagOf [1, 0]) 0 []) ∧
    dart__base__locality__domain demoRegistry 0
        (demoDomain (tagOf [1, 0]) 0 []).domain_tag none
      = Outcome.ret DART_OK (some (demoDomain (tagOf [1, 0]) 0 [])) :=
  ⟨rfl, by decide, by decide, rfl,
    tag_round_trip demoRegistry 0 demoRoot (demoDomain (tagOf [1, 0]) 0 []) [1, 0] none
      rfl (by decide) (by decide) rfl⟩

/-- Counterexample to C8: team 0 is inactive, and the resolver applied to the
root tag `.` returns `DART_OK` and sets the output to the null pointer. -/
theorem domain_inactive_root_tag :
    emptyRegistry.global_domain_.at 0 = some none ∧
    dart__base__locality__domain emptyRegistry 0 ['.'] (some demoRoot)
      = Outcome.ret DART_OK none :=
  ⟨rfl, rfl⟩

/-- C8, amended: for an inactive team (its domain-tree slot is NULL) the
resolver fails with `DART_ERR_INVAL`, leaving the output as it was, exactly
when the tag has a dot followed by a further character, so that the scan loop
runs; for every other tag, the root tag `.` among them, it returns `DART_OK`
and sets the output to the null pointer. -/
theorem domain_inactive (reg : Registry) (team : Int) (domain_tag : List Char)
    (loc : Option dart_domain_locality_t)
    (hslot : reg.global_domain_.at team = some none) :
    dart__base__locality__domain reg team domain_tag loc
      = if hasPart domain_tag = true then Outcome.ret DART_ERR_INVAL loc
        else Outcome.ret DART_OK none := by
  obtain ⟨t, ht, hnone⟩ := teamIndex_of_at _ _ _ hslot
  simp only [dart__base__locality__domain, ht, hnone]
  exact scan_inactive domain_tag domain_tag.length loc

/-- Witness of C8, amended: the tag `.0.` on inactive team 1. -/
theorem domain_inactive_witness :
    demoRegistry.global_domain_.at 1 = some none ∧
    dart__base__locality__domain demoRegistry 1 (tagOf [0]) (some demoRoot)
      = (if hasPart (tagOf [0]) = true then Outcome.ret DART_ERR_INVAL (some demoRoot)
         else Outcome.ret DART_OK none) :=
  ⟨rfl, domain_inactive demoRegistry 1 (tagOf [0]) (some demoRoot) rfl⟩


/-! ## Lemmas on delete -/

theorem delete_success (env : Collab) (reg : Registry) (team : Int)
    (t : Fin DART__BASE__LOCALITY__MAX_TEAM_DOMAINS) (ht : teamIndex team = some t)
    (hd : ∀ d, reg.global_domain_ t = some d →
      env.dart__base__locality__domain_delete d = DART_OK)
    (hh : ∀ h, reg.host_topology_ t = some h →
      env.dart__base__host_topology__delete h = DART_OK)
    (hm : ∀ m, reg.unit_mapping_ t = some m →
      env.dart__base__unit_locality__delete m = DART_OK) :
    dart__base__locality__delete env reg team
      = Outcome.ret DART_OK
          { deactivate reg t with calls := reg.calls ++ releaseCalls reg t } := by
  obtain ⟨ht_, um_, gd_, calls⟩ := reg
  simp only at hd hh hm
  have e1 : ∀ {α : Type} (f : Table α), f t = none → Function.update f t none = f :=
    fun f hf => by rw [← hf]; exact Function.update_eq_self t f
  cases hgd : gd_ t with
  | none =>
    cases hht : ht_ t with
    | none =>
      cases hum : um_ t with
      | none =>
        simp [dart__base__locality__delete, ht, hgd, hht, hum, deactivate, releaseCalls,
          e1 _ hgd, e1 _ hht, e1 _ hum]
      | some m =>
        simp [dart__base__locality__delete, ht, hgd, hht, hum, deactivate, releaseCalls,
          delete_global_domain, delete_host_topology, delete_unit_mapping, hm m hum,
          e1 _ hgd, e1 _ hht]
    | some h =>
      cases hum : um_ t with
      | none =>
        simp [dart__base__locality__delete, ht, hgd, hht, hum, deactivate, releaseCalls,
          delete_global_domain, delete_host_topology, delete_unit_mapping, hh h hht,
          e1 _ hgd, e1 _ hum]
      | some m =>
        simp [dart__base__locality__delete, ht, hgd, hht, hum, deactivate, releaseCalls,
          delete_global_domain, delete_host_topology, delete_unit_mapping, hh h hht,
          hm m hum, e1 _ hgd]
  | some d =>
    cases hht : ht_ t with
    | none =>
      cases hum : um_ t with
      | none =>
        simp [dart__base__locality__delete, ht, hgd, hht, hum, deactivate, releaseCalls,
          delete_global_domain, delete_host_topology, delete_unit_mapping, hd d hgd,
          e1 _ hht, e1 _ hum]
      | some m =>
        simp [dart__base__locality__delete, ht, hgd, hht, hum, deactivate, releaseCalls,
          delete_global_domain, delete_host_topology, delete_unit_mapping, hd d hgd,
          hm m hum, e1 _ hht]
    | some h =>
      cases hum : um_ t with
      | none =>
        simp [dart__base__locality__delete, ht, hgd, hht, hum, deactivate, releaseCalls,
          delete_global_domain, delete_host_topology, delete_unit_mapping, hd d hgd,
          hh h hht, e1 _ hum]
      | some m =>
        simp [dart__base__locality__delete, ht, hgd, hht, hum, deactivate, releaseCalls,
          delete_global_domain, delete_host_topology, delete_unit_mapping, hd d hgd,
          hh h hht, hm m hum]

theorem delete_inactive (env : Collab) (reg : Registry) (team : Int)
    (t : Fin DART__BASE__LOCALITY__MAX_TEAM_DOMAINS) (ht : teamIndex team = some t)
    (hgd : reg.global_domain_ t = none) (hht : reg.host_topology_ t = none)
    (hum : reg.unit_mapping_ t = none) :
    dart__base__locality__delete env reg team = Outcome.ret DART_OK reg := by
  simp [dart__base__locality__delete, ht, hgd, hht, hum]


/-- C6: idempotent delete. When the release operations succeed on the
resources the team holds, delete returns `DART_OK`; a second delete in a row
returns `DART_OK` again and leaves the registry as the first left it, recorded
calls included, so no release operation is invoked again; the calls the two
deletes made are one per resource held, so each resource is released at most
once. A delete of a team whose three slots are NULL returns `DART_OK` and
changes nothing. -/
theorem delete_idempotent (env : Collab) (reg : Registry) (team : Int)
    (t : Fin DART__BASE__LOCALITY__MAX_TEAM_DOMAINS) (ht : teamIndex team = some t)
    (hd : ∀ d, reg.global_domain_ t = some d →
      env.dart__base__locality__domain_delete d = DART_OK)
    (hh : ∀ h, reg.host_topology_ t = some h →
      env.dart__base__host_topology__delete h = DART_OK)
    (hm : ∀ m, reg.unit_mapping_ t = some m →
      env.dart__base__unit_locality__delete m = DART_OK) :
    (∃ reg1, dart__base__locality__delete env reg team = Outcome.ret DART_OK reg1 ∧
      dart__base__locality__delete env reg1 team = Outcome.ret DART_OK reg1 ∧
      reg1.calls = reg.calls ++ releaseCalls reg t ∧
      reg1.global_domain_ t = none ∧ reg1.host_topology_ t = none ∧
      reg1.unit_mapping_ t = none) ∧
    (reg.global_domain_ t = none → reg.host_topology_ t = none → reg.unit_mapping_ t = none →
      dart__base__locality__delete env reg team = Outcome.ret DART_OK reg) := by
  refine ⟨⟨_, delete_success env reg team t ht hd hh hm, ?_, rfl, ?_, ?_, ?_⟩,
    delete_inactive env reg team t ht⟩
  · exact delete_inactive env _ team t ht (by simp [deactivate]) (by simp [deactivate])
      (by simp [deactivate])
  · simp [deactivate]
  · simp [deactivate]
  · simp [deactivate]

/-- Witness of C6: team 0 of the example registry, all releases succeeding. -/
theorem delete_idempotent_witness :
    teamIndex 0 = some 0 ∧
    (∃ reg1, dart__base__locality__delete (demoCollab DART_OK DART_OK DART_OK) demoRegistry 0
        = Outcome.ret DART_OK reg1 ∧
      dart__base__locality__delete (demoCollab DART_OK DART_OK DART_OK) reg1 0
        = Outcome.ret DART_OK reg1 ∧
      reg1.calls = demoRegistry.calls ++ releaseCalls demoRegistry 0 ∧
      reg1.global_domain_ 0 = none ∧ reg1.host_topology_ 0 = none ∧
      reg1.unit_mapping_ 0 = none) :=
  ⟨rfl, (delete_idempotent (demoCollab DART_OK DART_OK DART_OK) demoRegistry 0 0 rfl
    (fun _ _ => rfl) (fun _ _ => rfl) (fun _ _ => rfl)).1⟩

/-- C7: delete releases in the order domain tree, host topology, unit mapping
and stops at the first failure. If the release of the domain tree fails with
`r`, delete returns `r`, has invoked that release only, and leaves the three
tables as they were. If the domain tree is released and the release of the
host topology fails with `r`, delete returns `r`, the domain slot is NULL, the
other two tables are as they were, and the release of the unit mapping is not
invoked. If all three are held and released, the calls are made in that
order. -/
theorem delete_stops_at_first_failure (env : Collab) (reg : Registry) (team : Int)
    (t : Fin DART__BASE__LOCALITY__MAX_TEAM_DOMAINS) (ht : teamIndex team = some t) :
    (∀ d r, reg.global_domain_ t = some d →
      env.dart__base__locality__domain_delete d = r → r ≠ DART_OK →
      dart__base__locality__delete env reg team
        = Outcome.ret r { reg with calls := reg.calls ++ [Call.domain_delete d] }) ∧
    (∀ d h r, reg.global_domain_ t = some d →
      env.dart__base__locality__domain_delete d = DART_OK →
      reg.host_topology_ t = some h →
      env.dart__base__host_topology__delete h = r → r ≠ DART_OK →
      dart__base__locality__delete env reg team
        = Outcome.ret r
            { reg with
              global_domain_ := Function.update reg.global_domain_ t none
              calls := reg.calls ++ [Call.domain_delete d, Call.host_topology_delete h] }) ∧
    (∀ d h m, reg.global_domain_ t = some d → reg.host_topology_ t = some h →
      reg.unit_mapping_ t = some m →
      env.dart__base__locality__domain_delete d = DART_OK →
      env.dart__base__host_topology__delete h = DART_OK →
      env.dart__base__unit_locality__delete m = DART_OK →
      dart__base__locality__delete env reg team
        = Outcome.ret DART_OK
            { deactivate reg t with
              calls := reg.calls ++ [Call.domain_delete d, Call.host_topology_delete h,
                Call.unit_locality_delete m] }) := by
  refine ⟨?_, ?_, ?_⟩
  · intro d r hgd hr hne
    simp [dart__base__locality__delete, ht, hgd, delete_global_domain, hr, hne]
  · intro d h r hgd hdok hht hr hne
    simp [dart__base__locality__delete, ht, hgd, hht, delete_global_domain,
      delete_host_topology, hdok, hr, hne]
  · intro d h m hgd hht hum hdok hhok hmok
    have := delete_success env reg team t ht
      (by intro d1 h1; rw [hgd] at h1; cases h1; exact hdok)
      (by intro h1 h2; rw [hht] at h2; cases h2; exact hhok)
      (by intro m1 h1; rw [hum] at h1; cases h1; exact hmok)
    rw [this]
    simp [releaseCalls, hgd, hht, hum]

/-- Witness of C7: on team 0 of the example registry, a failing release of the
domain tree, a failing release of the host topology, and three releases that
succeed. -/
theorem delete_stops_at_first_failure_witness :
    teamIndex 0 = some 0 ∧
    dart__base__locality__delete (demoCollab (DART_ERR_OTHER 5) DART_OK DART_OK) demoRegistry 0
      = Outcome.ret (DART_ERR_OTHER 5)
          { demoRegistry with calls := demoRegistry.calls ++ [Call.domain_delete demoRoot] } ∧
    dart__base__locality__delete (demoCollab DART_OK (DART_ERR_OTHER 6) DART_OK) demoRegistry 0
      = Outcome.ret (DART_ERR_OTHER 6)
          { demoRegistry with
            global_domain_ := Function.update demoRegistry.global_domain_ 0 none
            calls := demoRegistry.calls ++
              [Call.domain_delete demoRoot,
                Call.host_topology_delete (dart_host_topology_t.mk 7 2)] } ∧
    dart__base__locality__delete (demoCollab DART_OK DART_OK DART_OK) demoRegistry 0
      = Outcome.ret DART_OK
          { deactivate demoRegistry 0 with
            calls := demoRegistry.calls ++
              [Call.domain_delete demoRoot,
                Call.host_topology_delete (dart_host_topology_t.mk 7 2),
                Call.unit_locality_delete (dart_unit_mapping_t.mk 9)] } :=
  ⟨rfl,
    (delete_stops_at_first_failure (demoCollab (DART_ERR_OTHER 5) DART_OK DART_OK)
      demoRegistry 0 0 rfl).1 demoRoot (DART_ERR_OTHER 5) rfl rfl (by decide),
    (delete_stops_at_first_failure (demoCollab DART_OK (DART_ERR_OTHER 6) DART_OK)
      demoRegistry 0 0 rfl).2.1 demoRoot (dart_host_topology_t.mk 7 2) (DART_ERR_OTHER 6)
      rfl rfl rfl rfl (by decide),
    (delete_stops_at_first_failure (demoCollab DART_OK DART_OK DART_OK)
      demoRegistry 0 0 rfl).2.2 demoRoot (dart_host_topology_t.mk 7 2)
      (dart_unit_mapping_t.mk 9) rfl rfl rfl rfl rfl rfl⟩


/-! ## Finalize, create and the capacity of the tables -/

theorem teamIndex_none (team : Int)
    (h : team < 0 ∨ (DART__BASE__LOCALITY__MAX_TEAM_DOMAINS : Int) ≤ team) :
    teamIndex team = none := by
  unfold teamIndex
  rw [dif_neg]
  omega

theorem teamIndex_nat (n : Nat) (h : n < DART__BASE__LOCALITY__MAX_TEAM_DOMAINS) :
    teamIndex (n : Int) = some ⟨n, h⟩ := by
  unfold teamIndex
  rw [dif_pos ⟨by omega, by exact_mod_cast h⟩]
  simp

theorem delete_returns (env : Collab) (reg : Registry) (team : Int)
    (t : Fin DART__BASE__LOCALITY__MAX_TEAM_DOMAINS) (ht : teamIndex team = some t) :
    ∃ c reg1, dart__base__locality__delete env reg team = Outcome.ret c reg1 := by
  simp only [dart__base__locality__delete, ht]
  split_ifs <;> exact ⟨_, _, rfl⟩

theorem finalize_loop_returns (env : Collab) : ∀ (l : List Nat) (c : dart_ret_t)
    (reg : Registry), (∀ n ∈ l, n < DART__BASE__LOCALITY__MAX_TEAM_DOMAINS) →
    ∃ c1 reg1, l.foldl (finalize_step env) (Outcome.ret c reg) = Outcome.ret c1 reg1 := by
  intro l
  induction l with
  | nil => intro c reg _; exact ⟨c, reg, rfl⟩
  | cons n ns ih =>
    intro c reg h
    obtain ⟨c1, reg1, h1⟩ := delete_returns env reg (n : Int) ⟨n, h n (by simp)⟩
      (teamIndex_nat n (h n (by simp)))
    simp only [List.foldl_cons, finalize_step, h1]
    exact ih c1 reg1 (fun m hm => h m (by simp [hm]))

/-- Counterexample to C9: the release of the domain tree of team 0 fails, so
the delete of team 0 returns the error code 5, and finalize returns
`DART_OK`. -/
theorem finalize_hides_failure :
    (dart__base__locality__delete (demoCollab (DART_ERR_OTHER 5) DART_OK DART_OK)
      demoRegistry 0).code = some (DART_ERR_OTHER 5) ∧
    (dart__base__locality__finalize (demoCollab (DART_ERR_OTHER 5) DART_OK DART_OK)
      demoRegistry).code = some DART_OK :=
  ⟨rfl, rfl⟩

/-- Counterexample to C10: with the team id 32 none of the four functions
rejects the id; each of them indexes a table outside its 32 slots, where the
model stops, the behaviour of the code being undefined from there on. -/
theorem team_32_not_checked :
    dart__base__locality__create (demoCollab DART_OK DART_OK DART_OK) demoRegistry 32
      = Outcome.fault ∧
    dart__base__locality__delete (demoCollab DART_OK DART_OK DART_OK) demoRegistry 32
      = Outcome.fault ∧
    dart__base__locality__domain demoRegistry 32 ['.'] none = Outcome.fault ∧
    dart__base__locality__unit (demoCollab DART_OK DART_OK DART_OK) demoRegistry 32 0
      = Outcome.fault :=
  ⟨rfl, rfl, rfl, rfl⟩

/-! ## Lemmas on create -/

theorem create_eq (env : Collab) (reg : Registry) (team : Int) :
    dart__base__locality__create env reg team
      = if !DART_ASSERT_RETURNS env env.dart_hwinfo.1 DART_OK then Outcome.stop
        else
          match teamIndex team with
          | none => Outcome.fault
          | some t =>
            match create_build env team with
            | Outcome.ret _ b =>
              Outcome.ret DART_OK
                { host_topology_ := Function.update (fun _ => none) t (some b.2.1)
                  unit_mapping_ := Function.update reg.unit_mapping_ t b.2.2
                  global_domain_ := Function.update (fun _ => none) t (some b.1)
                  calls := reg.calls }
            | Outcome.fault => Outcome.fault
            | Outcome.stop => Outcome.stop
            | Outcome.nofuel => Outcome.nofuel := by
  unfold dart__base__locality__create create_build
  simp only []
  cases DART_ASSERT_RETURNS env env.dart_hwinfo.1 DART_OK
  · simp
  cases teamIndex team with
  | none => simp
  | some t =>
    cases env.malloc 0
    · simp
    cases env.dart_hwinfo.2 with
    | none => simp
    | some hwinfo =>
      cases DART_ASSERT_RETURNS env (env.dart_team_size team).1 DART_OK
      · simp
      cases (!env.malloc 1 && decide (0 < (env.dart_team_size team).2))
      swap
      · simp
      cases DART_ASSERT_RETURNS env (env.dart__base__unit_locality__create team).1 DART_OK
      · simp
      cases copy_host_names env (env.dart__base__unit_locality__create team).2
            (env.dart_team_size team).2 0 [] with
      | fault => simp
      | stop => simp
      | nofuel => simp
      | ret code hosts =>
        simp only []
        split_ifs <;> simp_all


theorem create_clears_others (env : Collab) (reg : Registry) (team : Int) (c : dart_ret_t)
    (reg1 : Registry) (u : Fin DART__BASE__LOCALITY__MAX_TEAM_DOMAINS)
    (h : dart__base__locality__create env reg team = Outcome.ret c reg1)
    (hu : teamIndex team ≠ some u) :
    reg1.global_domain_ u = none ∧ reg1.host_topology_ u = none ∧
    reg1.unit_mapping_ u = reg.unit_mapping_ u := by
  rw [create_eq] at h
  split_ifs at h
  split at h
  · cases h
  · rename_i t ht
    have hne : u ≠ t := fun e => hu (by rw [e]; exact ht)
    split at h
    · simp only [Outcome.ret.injEq] at h
      rw [← h.2]
      simp [Function.update_noteq hne]
    · cases h
    · cases h
    · cases h

/-- C5, at the failing input: team 0 is active and the tag `.0.` resolves for
it; a create of team 1 returns `DART_OK` and leaves the domain-tree slot and
the host-topology slot of team 0 NULL (the unit mapping of team 0 stays), so
that the tag `.0.` no longer resolves for team 0. -/
theorem create_clears_other_team :
    demoRegistry.global_domain_ 0 = some demoRoot ∧
    (demoRoot.child 0).isSome = true ∧
    dart__base__locality__domain demoRegistry 0 (tagOf [0]) none
      = Outcome.ret DART_OK (demoRoot.child 0) ∧
    (dart__base__locality__create (demoCollab DART_OK DART_OK DART_OK) demoRegistry 1).code
      = some DART_OK ∧
    (dart__base__locality__create (demoCollab DART_OK DART_OK DART_OK) demoRegistry 1).out.map
      (fun r => r.global_domain_ 0) = some none ∧
    (dart__base__locality__create (demoCollab DART_OK DART_OK DART_OK) demoRegistry 1).out.map
      (fun r => r.host_topology_ 0) = some none ∧
    (dart__base__locality__create (demoCollab DART_OK DART_OK DART_OK) demoRegistry 1).out.map
      (fun r => r.unit_mapping_ 0) = some (some (dart_unit_mapping_t.mk 9)) ∧
    (dart__base__locality__create (demoCollab DART_OK DART_OK DART_OK) demoRegistry 1).out.map
      (fun r => dart__base__locality__domain r 0 (tagOf [0]) none)
      = some (Outcome.ret DART_ERR_INVAL none) :=
  ⟨rfl, rfl, rfl, rfl, rfl, rfl, rfl, rfl⟩


/-! ## The tag scan on arbitrary indices -/

theorem scan_trailing_dot : ∀ (is : List Nat) (pre : List Char)
    (dom : Option dart_domain_locality_t) (f1 f2 : Nat) (loc : Option dart_domain_locality_t),
    is.length < f1 → is.length < f2 →
    domain_scan (pre ++ dotParts is) f1 dom (some pre.length) loc
      = domain_scan (pre ++ dotParts is ++ ['.']) f2 dom (some pre.length) loc := by
  intro is
  induction is with
  | nil =>
    intro pre dom f1 f2 loc h1 h2
    obtain ⟨g1, rfl⟩ : ∃ g, f1 = g + 1 := ⟨f1 - 1, by omega⟩
    obtain ⟨g2, rfl⟩ : ∃ g, f2 = g + 1 := ⟨f2 - 1, by omega⟩
    have hd : deref pre pre.length = some NUL := deref_end pre
    simp only [dotParts, List.append_nil]
    rw [scan_last_dot pre g2 dom loc]
    simp only [domain_scan, hd, if_true]
  | cons i is ih =>
    intro pre dom f1 f2 loc h1 h2
    obtain ⟨g1, rfl⟩ : ∃ g, f1 = g + 1 := ⟨f1 - 1, by omega⟩
    obtain ⟨g2, rfl⟩ : ∃ g, f2 = g + 1 := ⟨f2 - 1, by omega⟩
    have hr1 : ∀ c, (dotParts is).head? = some c → isdigit c = false := by
      have := dotParts_head is [] (by intro c hc; cases hc)
      simpa using this
    have hr2 : ∀ c, (dotParts is ++ ['.']).head? = some c → isdigit c = false :=
      dotParts_head is ['.'] (by intro c hc; simp at hc; rw [← hc]; decide)
    have s1 := scan_step pre i (dotParts is) hr1 g1 dom loc
    have s2 := scan_step pre i (dotParts is ++ ['.']) hr2 g2 dom loc
    have e1 : pre ++ dotParts (i :: is) = pre ++ '.' :: decimal i ++ dotParts is := by
      simp [dotParts]
    have e2 : pre ++ dotParts (i :: is) ++ ['.']
        = pre ++ '.' :: decimal i ++ (dotParts is ++ ['.']) := by
      simp [dotParts]
    have hl : pre.length + 1 + (decimal i).length = (pre ++ '.' :: decimal i).length := by
      simp only [List.length_append, List.length_cons]; omega
    have e3 : pre ++ '.' :: decimal i ++ (dotParts is ++ ['.'])
        = pre ++ '.' :: decimal i ++ dotParts is ++ ['.'] := by simp
    rw [e2, e1, s1, s2]
    cases dom with
    | none => rfl
    | some d =>
      simp only
      split_ifs
      · rfl
      · cases d.child (toInt32 (clampLong (i : Int))) with
        | none => rfl
        | some c =>
          simp only
          rw [hl, e3]
          exact ih (pre ++ '.' :: decimal i) (some c) g1 g2 loc
            (by simp only [List.length_cons] at h1; omega)
            (by simp only [List.length_cons] at h2; omega)

/-- C19: the trailing dot of a tag is optional. For every registry state,
every team id and every sequence of decimal indices, the resolver has the
same outcome (return code and output) for the tag `.i1. ... .ik` and for the
tag `.i1. ... .ik.`. -/
theorem domain_trailing_dot_optional (reg : Registry) (team : Int) (is : List Nat)
    (loc : Option dart_domain_locality_t) :
    dart__base__locality__domain reg team (dotParts is) loc
      = dart__base__locality__domain reg team (tagOf is) loc := by
  unfold dart__base__locality__domain
  cases teamIndex team with
  | none => rfl
  | some t =>
    simp only
    cases is with
    | nil => rfl
    | cons i is =>
      have hs1 : strchr (dotParts (i :: is)) '.' = some 0 := by
        simp [strchr, strchr_aux, dotParts]
      have hs2 : strchr (tagOf (i :: is)) '.' = some 0 := strchr_tagOf (i :: is) []
      have hlen := length_le_dotParts (i :: is)
      have := scan_trailing_dot (i :: is) [] (reg.global_domain_ t)
        ((dotParts (i :: is)).length + 1) ((tagOf (i :: is)).length + 1) loc
        (by omega) (by simp only [tagOf, List.length_append]; omega)
      simp only [List.nil_append, List.length_nil] at this
      rw [hs1, hs2, this]
      rfl

/-- C17, at the failing input: team 0 is active with a root of two children;
for the tag `.-1.` the index read is -1, the test `num_domains <= -1` of line
260 is false, and the resolver goes on to the child at index -1, outside the
array (the model reports the fault); the same happens for the tag
`.2147483648.`, whose index is narrowed to a negative `int`. -/
theorem domain_negative_index :
    demoRegistry.global_domain_ 0 = some demoRoot ∧
    demoRoot.num_domains = 2 ∧
    toInt32 (strtol ['.', '-', '1', '.'] 1).1 = -1 ∧
    dart__base__locality__domain demoRegistry 0 ['.', '-', '1', '.'] none = Outcome.fault ∧
    toInt32 (strtol (tagOf [2147483648]) 1).1 = -2147483648 ∧
    dart__base__locality__domain demoRegistry 0 (tagOf [2147483648]) none = Outcome.fault :=
  ⟨rfl, rfl, by decide, rfl, by decide, rfl⟩


/-! ## Termination of the tag scan -/

theorem takeWhile_length_le (q : Char → Bool) (l : List Char) :
    (l.takeWhile q).length ≤ l.length :=
  (List.takeWhile_sublist q).length_le

theorem strtol_bounds (s : List Char) (p : Nat) (hp : p ≤ s.length) :
    p ≤ (strtol s p).2 ∧ (strtol s p).2 ≤ s.length := by
  unfold strtol
  simp only
  have h1 := takeWhile_length_le isspace (List.drop p s)
  have h2 : (List.drop p s).length = s.length - p := List.length_drop p s
  generalize hr1 : List.drop (List.takeWhile isspace (List.drop p s)).length (List.drop p s)
    = rest1
  have h3 : rest1.length
      = (List.drop p s).length - (List.takeWhile isspace (List.drop p s)).length := by
    rw [← hr1, List.length_drop]
  generalize hsg : (match rest1 with
    | c :: _ => if c = '-' ∨ c = '+' then 1 else 0
    | [] => 0) = sign
  have h5 : sign ≤ rest1.length := by
    rw [← hsg]
    cases rest1 with
    | nil => simp
    | cons c cs => simp only [List.length_cons]; split_ifs <;> omega
  have h4 := takeWhile_length_le isdigit (List.drop sign rest1)
  rw [List.length_drop] at h4
  by_cases h : List.takeWhile isdigit (List.drop sign rest1) = []
  · rw [if_pos h]
    exact ⟨le_refl p, hp⟩
  · rw [if_neg h]
    simp only
    omega

theorem scan_terminates (domain_tag : List Char) : ∀ (fuel : Nat)
    (dom : Option dart_domain_locality_t) (db : Nat) (loc : Option dart_domain_locality_t),
    db ≤ domain_tag.length → domain_tag.length < fuel + db →
    domain_scan domain_tag fuel dom (some db) loc ≠ Outcome.nofuel := by
  intro fuel
  induction fuel with
  | zero => intro dom db loc h1 h2; omega
  | succ f ih =>
    intro dom db loc h1 h2
    have hd := deref_le domain_tag db h1
    simp only [domain_scan, hd]
    split_ifs with hc
    · simp
    · have hlt : db < domain_tag.length := by
        by_contra hge
        have : db = domain_tag.length := by omega
        apply hc
        rw [this]
        simp
      have hd1 := deref_le domain_tag (db + 1) (by omega)
      simp only [hd1]
      split_ifs
      · simp
      · cases dom with
        | none => simp
        | some d =>
          simp only
          split_ifs
          · simp
          · cases d.child (toInt32 (strtol domain_tag (db + 1)).1) with
            | none => simp
            | some c =>
              simp only
              have hb := strtol_bounds domain_tag (db + 1) (by omega)
              exact ih (some c) _ loc hb.2 (by omega)


theorem strtol_no_digit (x : Char) (hd : isdigit x = false) :
    strtol ['.', x] 1 = (0, 1) := by
  unfold strtol
  by_cases hs : isspace x = true
  · simp [List.takeWhile, hs]
  · have hs1 : isspace x = false := by simpa using hs
    by_cases hsg : x = '-' ∨ x = '+'
    · simp [List.takeWhile, hs1, hsg]
    · simp [List.takeWhile, hs1, hsg, hd]

/-- Counterexample to C12: on the tree of the concrete scenario the three
malformed tags of the claim do not make the resolver return an error: `.a.`
resolves to the node at path 0, 0 and `. 1.` to the child at index 1, both
with `DART_OK`, and `.-1.` leads to a child access outside the array. -/
theorem malformed_tags_accepted :
    dart__base__locality__domain demoRegistry 0 ['.', 'a', '.'] none
      = Outcome.ret DART_OK (nodeAt demoRoot [0, 0]) ∧
    (nodeAt demoRoot [0, 0]).isSome = true ∧
    dart__base__locality__domain demoRegistry 0 ['.', ' ', '1', '.'] none
      = Outcome.ret DART_OK (demoRoot.child 1) ∧
    (demoRoot.child 1).isSome = true ∧
    dart__base__locality__domain demoRegistry 0 ['.', '-', '1', '.'] none = Outcome.fault :=
  ⟨rfl, rfl, rfl, rfl, rfl⟩

/-- C12, amended: the parts of a tag are not validated. A part in which the
number parser finds no decimal digit is read as the index 0: for an active
team whose root has a child at index 0 and every character `x` that is
neither a digit nor the terminator, the tag made of a dot and `x` resolves to
that child with `DART_OK`. -/
theorem domain_reads_no_digit_as_zero (reg : Registry) (team : Int)
    (root c0 : dart_domain_locality_t) (x : Char) (loc : Option dart_domain_locality_t)
    (hroot : reg.global_domain_.at team = some (some root))
    (hn : 0 < root.num_domains) (hc : root.child 0 = some c0)
    (hd : isdigit x = false) (h0 : x ≠ NUL) :
    dart__base__locality__domain reg team ['.', x] loc = Outcome.ret DART_OK (some c0) := by
  obtain ⟨t, ht, hslot⟩ := teamIndex_of_at _ _ _ hroot
  have hs : strchr ['.', x] '.' = some 0 := by simp [strchr, strchr_aux]
  have d0 : deref ['.', x] 0 = some '.' := rfl
  have d1 : deref ['.', x] 1 = some x := rfl
  have d2 : deref ['.', x] 2 = some NUL := rfl
  have hz : toInt32 0 = 0 := by decide
  have hdot : ¬ ('.' = NUL) := by decide
  simp only [dart__base__locality__domain, ht, hslot, hs, List.length_cons, List.length_nil,
    domain_scan, d0, d1, d2, strtol_no_digit x hd, hz, hc, if_neg hdot, if_neg h0,
    if_neg (not_le.mpr hn), if_true, Nat.zero_add, Nat.reduceAdd]

/-- Witness of C12, amended: the tag `.a` on the tree of the concrete
scenario. -/
theorem domain_reads_no_digit_as_zero_witness :
    demoRegistry.global_domain_.at 0 = some (some demoRoot) ∧
    0 < demoRoot.num_domains ∧
    demoRoot.child 0 = nodeAt demoRoot [0] ∧ isdigit 'a' = false ∧ 'a' ≠ NUL ∧
    dart__base__locality__domain demoRegistry 0 ['.', 'a'] none
      = Outcome.ret DART_OK (nodeAt demoRoot [0]) :=
  ⟨rfl, by decide, rfl, by decide, by decide,
    domain_reads_no_digit_as_zero demoRegistry 0 demoRoot
      (demoDomain (tagOf [0]) 2
        [demoDomain (tagOf [0, 0]) 0 [], demoDomain (tagOf [0, 1]) 0 []])
      'a' none rfl (by decide) rfl (by decide) (by decide)⟩


/-! ## Create with succeeding and with failing collaborators -/

theorem assert_ok (env : Collab) : DART_ASSERT_RETURNS env DART_OK DART_OK = true := by
  simp [DART_ASSERT_RETURNS]

theorem toInt32_nat (i : Nat) (h : (i : Int) ≤ INT_MAX) : toInt32 (i : Int) = (i : Int) := by
  simp only [INT_MAX] at h
  simp only [toInt32]
  omega

theorem num_units_mk (a b : List Char) (c : dart_locality_scope_t) (d : Int) (e : Option Nat)
    (f : Int) (g : List dart_domain_locality_t) (h : dart_hwinfo_t) (i : Int) (j : List Int)
    (k : Int) : (dart_domain_locality_t.mk a b c d e f g h i j k).num_units = i := rfl

theorem unit_ids_mk (a b : List Char) (c : dart_locality_scope_t) (d : Int) (e : Option Nat)
    (f : Int) (g : List dart_domain_locality_t) (h : dart_hwinfo_t) (i : Int) (j : List Int)
    (k : Int) : (dart_domain_locality_t.mk a b c d e f g h i j k).unit_ids = j := rfl

/-! ## Finalize, the life cycle of a team, and the unit lookup -/

theorem delete_released (env : Collab) (reg : Registry) (team : Int)
    (t : Fin DART__BASE__LOCALITY__MAX_TEAM_DOMAINS) (ht : teamIndex team = some t)
    (hrel : releasesSucceed env) :
    ∃ reg1, dart__base__locality__delete env reg team = Outcome.ret DART_OK reg1 ∧
      uninitialized reg1 t ∧
      ∀ u, u ≠ t → reg1.global_domain_ u = reg.global_domain_ u ∧
        reg1.host_topology_ u = reg.host_topology_ u ∧
        reg1.unit_mapping_ u = reg.unit_mapping_ u := by
  refine ⟨_, delete_success env reg team t ht (fun d _ => hrel.1 d) (fun h _ => hrel.2.1 h)
    (fun m _ => hrel.2.2 m), ?_, ?_⟩
  · simp [uninitialized, deactivate]
  · intro u hu
    simp [deactivate, Function.update_noteq hu]

theorem finalize_loop_clears (env : Collab) (hrel : releasesSucceed env) :
    ∀ (l : List Nat) (c : dart_ret_t) (reg : Registry),
    (∀ n ∈ l, n < DART__BASE__LOCALITY__MAX_TEAM_DOMAINS) →
    ∃ c1 reg1, l.foldl (finalize_step env) (Outcome.ret c reg) = Outcome.ret c1 reg1 ∧
      ∀ u : Fin DART__BASE__LOCALITY__MAX_TEAM_DOMAINS,
        (u.val ∈ l → uninitialized reg1 u) ∧ (uninitialized reg u → uninitialized reg1 u) := by
  intro l
  induction l with
  | nil =>
    intro c reg _
    exact ⟨c, reg, rfl, fun u => ⟨fun h => absurd h (List.not_mem_nil _), fun h => h⟩⟩
  | cons n ns ih =>
    intro c reg h
    have hn := h n (by simp)
    obtain ⟨reg', hdel, hun, hframe⟩ := delete_released env reg (n : Int) ⟨n, hn⟩
      (teamIndex_nat n hn) hrel
    obtain ⟨c1, reg1, hfold, hall⟩ := ih DART_OK reg' (fun m hm => h m (by simp [hm]))
    refine ⟨c1, reg1, ?_, ?_⟩
    · simp only [List.foldl_cons, finalize_step, hdel]
      exact hfold
    · intro u
      have keep : uninitialized reg u → uninitialized reg' u := by
        intro hu
        by_cases e : u = ⟨n, hn⟩
        · rw [e]; exact hun
        · obtain ⟨f1, f2, f3⟩ := hframe u e
          exact ⟨by rw [f1]; exact hu.1, by rw [f2]; exact hu.2.1, by rw [f3]; exact hu.2.2⟩
      constructor
      · intro hmem
        rcases List.mem_cons.mp hmem with e | e
        · have : u = ⟨n, hn⟩ := Fin.ext e
          exact (hall u).2 (by rw [this]; exact hun)
        · exact (hall u).1 e
      · intro hu
        exact (hall u).2 (keep hu)

/-- C14: after finalize, when every release operation succeeds, every team
id `0 .. 31` is in the state Uninitialized, whatever teams were active
before: finalize returns `DART_OK` and all entries of the domain-tree table,
the host-topology table and the unit-mapping table are NULL. -/
theorem finalize_clears_all (env : Collab) (reg : Registry) (hrel : releasesSucceed env) :
    ∃ reg1, dart__base__locality__finalize env reg = Outcome.ret DART_OK reg1 ∧
      ∀ t, reg1.global_domain_ t = none ∧ reg1.host_topology_ t = none ∧
        reg1.unit_mapping_ t = none := by
  obtain ⟨c1, reg1, hfold, hall⟩ := finalize_loop_clears env hrel
    (List.range DART__BASE__LOCALITY__MAX_TEAM_DOMAINS) DART_OK reg
    (fun n hn => List.mem_range.mp hn)
  refine ⟨_, by unfold dart__base__locality__finalize; rw [hfold], ?_⟩
  intro t
  exact (hall t).1 (List.mem_range.mpr t.isLt)

/-- Witness of C14: the example registry, in which team 0 is active. -/
theorem finalize_clears_all_witness :
    releasesSucceed (demoCollab DART_OK DART_OK DART_OK) ∧
    ∃ reg1, dart__base__locality__finalize (demoCollab DART_OK DART_OK DART_OK) demoRegistry
        = Outcome.ret DART_OK reg1 ∧
      ∀ t, reg1.global_domain_ t = none ∧ reg1.host_topology_ t = none ∧
        reg1.unit_mapping_ t = none :=
  ⟨⟨fun _ => rfl, fun _ => rfl, fun _ => rfl⟩,
    finalize_clears_all (demoCollab DART_OK DART_OK DART_OK) demoRegistry
      ⟨fun _ => rfl, fun _ => rfl, fun _ => rfl⟩⟩

/-- C16: the unit lookup. `dart__base__locality__unit` hands the unit mapping
of the team to the lookup `dart__base__unit_locality__at`: when the lookup
fails, it returns the code of the lookup and sets the output to NULL, and when
the lookup succeeds, it returns `DART_OK` and outputs what the lookup found.
With the lookup the spec describes, it outputs the record of the unit and
returns `DART_OK` when the team holds a unit mapping and the unit id is in
range, and returns the error code of the lookup with a NULL output when the
team holds no unit mapping or the unit id is out of range. The function has
the registry as an input only: it writes to no table. -/
theorem unit_lookup (env : Collab) (reg : Registry) (team : Int)
    (t : Fin DART__BASE__LOCALITY__MAX_TEAM_DOMAINS) (unit : Int)
    (ht : teamIndex team = some t) :
    ((env.dart__base__unit_locality__at (reg.unit_mapping_ t) unit).1 ≠ DART_OK →
      dart__base__locality__unit env reg team unit
        = Outcome.ret (env.dart__base__unit_locality__at (reg.unit_mapping_ t) unit).1 none) ∧
    ((env.dart__base__unit_locality__at (reg.unit_mapping_ t) unit).1 = DART_OK →
      dart__base__locality__unit env reg team unit
        = Outcome.ret DART_OK
            (env.dart__base__unit_locality__at (reg.unit_mapping_ t) unit).2) ∧
    (∀ records unknown_unit,
      env.dart__base__unit_locality__at = unit_locality_at_spec records unknown_unit →
      unknown_unit ≠ DART_OK →
      (∀ m, reg.unit_mapping_ t = some m → 0 ≤ unit → unit < ((records m).length : Int) →
        ∃ r, (records m).get? unit.toNat = some r ∧
          dart__base__locality__unit env reg team unit = Outcome.ret DART_OK (some r)) ∧
      (reg.unit_mapping_ t = none →
        dart__base__locality__unit env reg team unit = Outcome.ret unknown_unit none) ∧
      (∀ m, reg.unit_mapping_ t = some m → ¬ (0 ≤ unit ∧ unit < ((records m).length : Int)) →
        dart__base__locality__unit env reg team unit = Outcome.ret unknown_unit none)) := by
  refine ⟨?_, ?_, ?_⟩
  · intro h
    simp only [dart__base__locality__unit, ht, ne_eq, h, not_false_eq_true, if_true]
  · intro h
    simp only [dart__base__locality__unit, ht, ne_eq, h, not_true_eq_false, if_false]
  · intro records unknown_unit hat herr
    refine ⟨?_, ?_, ?_⟩
    · intro m hm h0 h1
      have hlt : unit.toNat < (records m).length := by omega
      refine ⟨(records m).get ⟨unit.toNat, hlt⟩, List.get?_eq_get hlt, ?_⟩
      simp only [dart__base__locality__unit, ht, hat, hm, unit_locality_at_spec, h0, h1,
        and_self, if_true, ne_eq, not_true_eq_false, if_false, List.get?_eq_get hlt]
    · intro hm
      simp only [dart__base__locality__unit, ht, hat, hm, unit_locality_at_spec, ne_eq, herr,
        not_false_eq_true, if_true]
    · intro m hm hout
      simp only [dart__base__locality__unit, ht, hat, hm, unit_locality_at_spec, hout,
        if_false, ne_eq, herr, not_false_eq_true, if_true]

/-- Witness of C16: on the example registry with the lookup of the spec, unit
1 of the active team 0 is found, unit 2 of team 0 and unit 0 of the inactive
team 1 are not. -/
theorem unit_lookup_witness :
    teamIndex 0 = some 0 ∧ teamIndex 1 = some 1 ∧
    dart__base__locality__unit lookupCollab demoRegistry 0 1
      = Outcome.ret DART_OK (lookupCollab.dart__base__unit_locality__at
          (demoRegistry.unit_mapping_ 0) 1).2 ∧
    (lookupCollab.dart__base__unit_locality__at (demoRegistry.unit_mapping_ 0) 1).2
      = some (dart_unit_locality_t.mk 1 ['A'] (dart_hwinfo_t.mk [])) ∧
    dart__base__locality__unit lookupCollab demoRegistry 0 2
      = Outcome.ret DART_ERR_INVAL none ∧
    dart__base__locality__unit lookupCollab demoRegistry 1 0
      = Outcome.ret DART_ERR_INVAL none :=
  ⟨rfl, rfl,
    (unit_lookup lookupCollab demoRegistry 0 0 1 rfl).2.1 rfl,
    rfl,
    ((unit_lookup lookupCollab demoRegistry 0 0 2 rfl).2.2 demoRecords DART_ERR_INVAL rfl
      (by decide)).2.2 (dart_unit_mapping_t.mk 9) rfl (by decide),
    ((unit_lookup lookupCollab demoRegistry 1 1 0 rfl).2.2 demoRecords DART_ERR_INVAL rfl
      (by decide)).2.1 rfl⟩


/-! ## Create with succeeding collaborators -/

theorem copy_host_names_eq (env : Collab) (um : Option dart_unit_mapping_t)
    (hm : ∀ k, env.malloc k = true) :
    ∀ (k u : Nat) (hosts : List (List Char)),
      (∀ j : Nat, u ≤ j → j < u + k →
        (env.dart__base__unit_locality__at um (toInt32 (j : Int))).1 = DART_OK ∧
        (env.dart__base__unit_locality__at um (toInt32 (j : Int))).2 ≠ none) →
      copy_host_names env um k u hosts = Outcome.ret DART_OK
        (hosts ++ (List.range' u k).map (fun (j : Nat) =>
          match (env.dart__base__unit_locality__at um (toInt32 (j : Int))).2 with
          | some ul => ul.host.take env.DART_LOCALITY_HOST_MAX_SIZE
          | none => [])) := by
  intro k
  induction k with
  | zero => intro u hosts _; simp [copy_host_names]
  | succ k ih =>
    intro u hosts hat
    obtain ⟨h1, h2⟩ := hat u (le_refl u) (by omega)
    cases hul : (env.dart__base__unit_locality__at um (toInt32 (u : Int))).2 with
    | none => exact absurd hul h2
    | some ul =>
      simp only [copy_host_names, hm, h1, assert_ok, hul, Bool.not_true, Bool.false_eq_true,
        if_false]
      rw [ih (u + 1) _ (fun j hj1 hj2 => hat j (by omega) (by omega))]
      simp [List.range'_succ, hul]

theorem create_build_ok (env : Collab) (team : Int) (hwinfo : dart_hwinfo_t)
    (hs : collaboratorsSucceed env team) (hhw : env.dart_hwinfo.2 = some hwinfo) :
    create_build env team = Outcome.ret DART_OK
      (builtRoot env team hwinfo, builtTopology env team,
        (env.dart__base__unit_locality__create team).2) := by
  obtain ⟨_, hm, hsz, hcr, hat, htopo, hw, hhw2, hsub⟩ := hs
  rw [hhw] at hhw2
  cases hhw2
  have hcopy := copy_host_names_eq env (env.dart__base__unit_locality__create team).2 hm
    (env.dart_team_size team).2 0 [] (fun j _ hj => hat j (by omega))
  rw [List.nil_append, ← List.range_eq_range'] at hcopy
  have htopo2 := htopo
  have hsub2 := hsub
  simp only [initialRoot, builtTopology, hostNames] at htopo2 hsub2
  simp only [create_build, hm, hhw, hsz, hcr, hcopy, htopo2, hsub2, assert_ok, Bool.not_true,
    Bool.false_eq_true, if_false, Bool.false_and, builtRoot, initialRoot, builtTopology,
    hostNames]

theorem create_ok (env : Collab) (reg : Registry) (team : Int)
    (t : Fin DART__BASE__LOCALITY__MAX_TEAM_DOMAINS) (hwinfo : dart_hwinfo_t)
    (ht : teamIndex team = some t) (hs : collaboratorsSucceed env team)
    (hhw : env.dart_hwinfo.2 = some hwinfo) :
    dart__base__locality__create env reg team = Outcome.ret DART_OK
      { host_topology_ := Function.update (fun _ => none) t (some (builtTopology env team))
        unit_mapping_ := Function.update reg.unit_mapping_ t
          (env.dart__base__unit_locality__create team).2
        global_domain_ := Function.update (fun _ => none) t (some (builtRoot env team hwinfo))
        calls := reg.calls } := by
  have hb := create_build_ok env team hwinfo hs hhw
  rw [create_eq]
  simp only [hs.1, assert_ok, ht, hb, Bool.not_true, Bool.false_eq_true, if_false]


/-- C13: the root domain that create stores in the slot of a team of size
`n` has scope Global, level 0, no parent, an empty host name, the tag `.`,
`num_units = n` and the unit ids `0, 1, ..., n - 1` in ascending order. The
collaborators succeed on the calls create makes, so that create returns; the
construction of sub-domains leaves these fields of the root as create wrote
them; and `n` is a value of the type `int` of `num_units`. -/
theorem create_root_fields (env : Collab) (reg : Registry) (team : Int)
    (t : Fin DART__BASE__LOCALITY__MAX_TEAM_DOMAINS) (n : Nat)
    (ht : teamIndex team = some t) (hs : collaboratorsSucceed env team)
    (hkeep : keepsRootFields env) (hsize : (env.dart_team_size team).2 = n)
    (hn : (n : Int) ≤ INT_MAX) :
    ∃ reg1 root, dart__base__locality__create env reg team = Outcome.ret DART_OK reg1 ∧
      reg1.global_domain_ t = some root ∧
      root.scope = dart_locality_scope_t.DART_LOCALITY_SCOPE_GLOBAL ∧
      root.level = 0 ∧ root.parent = none ∧ root.host = [] ∧ root.domain_tag = ['.'] ∧
      root.num_units = (n : Int) ∧
      root.unit_ids = (List.range n).map (fun (u : Nat) => (u : Int)) := by
  obtain ⟨hwinfo, hhw, _⟩ := hs.2.2.2.2.2.2
  have hc := create_ok env reg team t hwinfo ht hs hhw
  obtain ⟨k1, k2, k3, k4, k5, k6, k7⟩ := hkeep (initialRoot env team hwinfo)
    (builtTopology env team) (env.dart__base__unit_locality__create team).2
  refine ⟨_, builtRoot env team hwinfo, hc, by simp, k1, k2, k3, k4, k5, ?_, ?_⟩
  · rw [builtRoot, k6, initialRoot, num_units_mk, hsize]
    exact toInt32_nat n hn
  · rw [builtRoot, k7, initialRoot, unit_ids_mk, hsize]
    apply List.map_congr_left
    intro u hu
    have : u < n := List.mem_range.mp hu
    exact toInt32_nat u (by omega)

theorem lookupCollab_succeeds : collaboratorsSucceed lookupCollab 0 :=
  ⟨rfl, fun _ => rfl, rfl, rfl,
    fun u hu => by
      have hu2 : u < 2 := hu
      interval_cases u
      · exact ⟨rfl, by decide⟩
      · exact ⟨rfl, by decide⟩,
    rfl, ⟨dart_hwinfo_t.mk [], rfl, rfl⟩⟩

theorem secondCollab_succeeds : collaboratorsSucceed secondCollab 0 :=
  ⟨rfl, fun _ => rfl, rfl, rfl,
    fun u hu => by
      have hu2 : u < 2 := hu
      interval_cases u
      · exact ⟨rfl, by decide⟩
      · exact ⟨rfl, by decide⟩,
    rfl, ⟨dart_hwinfo_t.mk [], rfl, rfl⟩⟩

/-- Witness of C13: team 0, a team of two units, with the unit lookup
modelled from the spec. -/
theorem create_root_fields_witness :
    teamIndex 0 = some 0 ∧
    collaboratorsSucceed lookupCollab 0 ∧
    keepsRootFields lookupCollab ∧
    (lookupCollab.dart_team_size 0).2 = 2 ∧
    ((2 : Nat) : Int) ≤ INT_MAX ∧
    ∃ reg1 root,
      dart__base__locality__create lookupCollab emptyRegistry 0 = Outcome.ret DART_OK reg1 ∧
      reg1.global_domain_ 0 = some root ∧
      root.scope = dart_locality_scope_t.DART_LOCALITY_SCOPE_GLOBAL ∧
      root.level = 0 ∧ root.parent = none ∧ root.host = [] ∧ root.domain_tag = ['.'] ∧
      root.num_units = ((2 : Nat) : Int) ∧
      root.unit_ids = (List.range 2).map (fun (u : Nat) => (u : Int)) :=
  ⟨rfl, lookupCollab_succeeds, fun _ _ _ => ⟨rfl, rfl, rfl, rfl, rfl, rfl, rfl⟩, rfl,
    by decide,
    create_root_fields lookupCollab emptyRegistry 0 0 2 rfl lookupCollab_succeeds
      (fun _ _ _ => ⟨rfl, rfl, rfl, rfl, rfl, rfl, rfl⟩) rfl (by decide)⟩

/-- C15: life cycle re-entry. With the collaborators succeeding, the sequence
create, delete, create on one team id returns `DART_OK` at every step; the
delete releases what the first create stored and leaves the team
Uninitialized; and after the second create the three slots of the team hold
what the collaborators of the second create built: the root as its
construction of sub-domains left it, its host topology and its unit mapping.
The collaborators of the three calls are given apart, as the second create
need not build what the first built. -/
theorem lifecycle_reentry (env1 envd env2 : Collab) (reg : Registry) (team : Int)
    (t : Fin DART__BASE__LOCALITY__MAX_TEAM_DOMAINS) (hwinfo2 : dart_hwinfo_t)
    (ht : teamIndex team = some t)
    (hs1 : collaboratorsSucceed env1 team) (hrel : releasesSucceed envd)
    (hs2 : collaboratorsSucceed env2 team) (hhw2 : env2.dart_hwinfo.2 = some hwinfo2) :
    ∃ reg1 reg2 reg3,
      dart__base__locality__create env1 reg team = Outcome.ret DART_OK reg1 ∧
      dart__base__locality__delete envd reg1 team = Outcome.ret DART_OK reg2 ∧
      reg2.calls = reg1.calls ++ releaseCalls reg1 t ∧
      uninitialized reg2 t ∧
      dart__base__locality__create env2 reg2 team = Outcome.ret DART_OK reg3 ∧
      reg3.global_domain_ t = some (builtRoot env2 team hwinfo2) ∧
      reg3.host_topology_ t = some (builtTopology env2 team) ∧
      reg3.unit_mapping_ t = (env2.dart__base__unit_locality__create team).2 := by
  obtain ⟨hwinfo1, hhw1, _⟩ := hs1.2.2.2.2.2.2
  have hc1 := create_ok env1 reg team t hwinfo1 ht hs1 hhw1
  refine ⟨_, _, _, hc1,
    delete_success envd _ team t ht (fun d _ => hrel.1 d) (fun h _ => hrel.2.1 h)
      (fun m _ => hrel.2.2 m),
    rfl, ?_, create_ok env2 _ team t hwinfo2 ht hs2 hhw2, ?_, ?_, ?_⟩
  · simp [uninitialized, deactivate]
  · simp
  · simp
  · simp

/-- Witness of C15: team 0, where the second create builds host topology 18
and unit mapping 20 in place of 8 and 10. -/
theorem lifecycle_reentry_witness :
    teamIndex 0 = some 0 ∧
    collaboratorsSucceed lookupCollab 0 ∧
    releasesSucceed (demoCollab DART_OK DART_OK DART_OK) ∧
    collaboratorsSucceed secondCollab 0 ∧
    secondCollab.dart_hwinfo.2 = some (dart_hwinfo_t.mk []) ∧
    builtTopology lookupCollab 0 = dart_host_topology_t.mk 8 1 ∧
    builtTopology secondCollab 0 = dart_host_topology_t.mk 18 1 ∧
    (secondCollab.dart__base__unit_locality__create 0).2 = some (dart_unit_mapping_t.mk 20) ∧
    ∃ reg1 reg2 reg3,
      dart__base__locality__create lookupCollab emptyRegistry 0 = Outcome.ret DART_OK reg1 ∧
      dart__base__locality__delete (demoCollab DART_OK DART_OK DART_OK) reg1 0
        = Outcome.ret DART_OK reg2 ∧
      reg2.calls = reg1.calls ++ releaseCalls reg1 0 ∧
      uninitialized reg2 0 ∧
      dart__base__locality__create secondCollab reg2 0 = Outcome.ret DART_OK reg3 ∧
      reg3.global_domain_ 0 = some (builtRoot secondCollab 0 (dart_hwinfo_t.mk [])) ∧
      reg3.host_topology_ 0 = some (builtTopology secondCollab 0) ∧
      reg3.unit_mapping_ 0 = (secondCollab.dart__base__unit_locality__create 0).2 :=
  ⟨rfl, lookupCollab_succeeds, ⟨fun _ => rfl, fun _ => rfl, fun _ => rfl⟩,
    secondCollab_succeeds, rfl, rfl, rfl, rfl,
    lifecycle_reentry lookupCollab (demoCollab DART_OK DART_OK DART_OK) secondCollab
      emptyRegistry 0 0 (dart_hwinfo_t.mk []) rfl lookupCollab_succeeds
      ⟨fun _ => rfl, fun _ => rfl, fun _ => rfl⟩ secondCollab_succeeds rfl⟩


/-! ## Finalize as a sequence of deletes -/

theorem afterDelete_eq (env : Collab) (reg : Registry) (team : Int)
    (t : Fin DART__BASE__LOCALITY__MAX_TEAM_DOMAINS) (ht : teamIndex team = some t) :
    afterDelete env reg team
      = if ((reg.global_domain_ t).isNone && (reg.host_topology_ t).isNone
            && (reg.unit_mapping_ t).isNone) = true then reg
        else if (delete_global_domain env reg t).1 ≠ DART_OK then
          (delete_global_domain env reg t).2
        else if (delete_host_topology env (delete_global_domain env reg t).2 t).1 ≠ DART_OK then
          (delete_host_topology env (delete_global_domain env reg t).2 t).2
        else
          (delete_unit_mapping env
            (delete_host_topology env (delete_global_domain env reg t).2 t).2 t).2 := by
  unfold afterDelete dart__base__locality__delete
  simp only [ht]
  split_ifs <;> rfl

theorem delete_global_domain_slots (env : Collab) (reg : Registry)
    (t u : Fin DART__BASE__LOCALITY__MAX_TEAM_DOMAINS) :
    ((delete_global_domain env reg t).2.global_domain_ u
        = if u = t ∧ (delete_global_domain env reg t).1 = DART_OK then none
          else reg.global_domain_ u) ∧
    (delete_global_domain env reg t).2.host_topology_ u = reg.host_topology_ u ∧
    (delete_global_domain env reg t).2.unit_mapping_ u = reg.unit_mapping_ u := by
  unfold delete_global_domain
  cases hgd : reg.global_domain_ t with
  | none =>
    simp only [true_and, and_true]
    by_cases e : u = t
    · simp [e, hgd]
    · simp [e]
  | some d =>
    simp only
    by_cases hr : env.dart__base__locality__domain_delete d = DART_OK
    · by_cases e : u = t
      · simp [hr, e]
      · simp [hr, e, Function.update_noteq e]
    · simp [hr]

theorem delete_host_topology_slots (env : Collab) (reg : Registry)
    (t u : Fin DART__BASE__LOCALITY__MAX_TEAM_DOMAINS) :
    ((delete_host_topology env reg t).2.host_topology_ u
        = if u = t ∧ (delete_host_topology env reg t).1 = DART_OK then none
          else reg.host_topology_ u) ∧
    (delete_host_topology env reg t).2.global_domain_ u = reg.global_domain_ u ∧
    (delete_host_topology env reg t).2.unit_mapping_ u = reg.unit_mapping_ u := by
  unfold delete_host_topology
  cases hgd : reg.host_topology_ t with
  | none =>
    simp only [true_and, and_true]
    by_cases e : u = t
    · simp [e, hgd]
    · simp [e]
  | some d =>
    simp only
    by_cases hr : env.dart__base__host_topology__delete d = DART_OK
    · by_cases e : u = t
      · simp [hr, e]
      · simp [hr, e, Function.update_noteq e]
    · simp [hr]

theorem delete_unit_mapping_slots (env : Collab) (reg : Registry)
    (t u : Fin DART__BASE__LOCALITY__MAX_TEAM_DOMAINS) :
    ((delete_unit_mapping env reg t).2.unit_mapping_ u
        = if u = t ∧ (delete_unit_mapping env reg t).1 = DART_OK then none
          else reg.unit_mapping_ u) ∧
    (delete_unit_mapping env reg t).2.global_domain_ u = reg.global_domain_ u ∧
    (delete_unit_mapping env reg t).2.host_topology_ u = reg.host_topology_ u := by
  unfold delete_unit_mapping
  cases hgd : reg.unit_mapping_ t with
  | none =>
    simp only [true_and, and_true]
    by_cases e : u = t
    · simp [e, hgd]
    · simp [e]
  | some d =>
    simp only
    by_cases hr : env.dart__base__unit_locality__delete d = DART_OK
    · by_cases e : u = t
      · simp [hr, e]
      · simp [hr, e, Function.update_noteq e]
    · simp [hr]

theorem delete_frame (env : Collab) (reg : Registry) (team : Int)
    (t u : Fin DART__BASE__LOCALITY__MAX_TEAM_DOMAINS) (ht : teamIndex team = some t)
    (hu : u ≠ t) : slots (afterDelete env reg team) u = slots reg u := by
  rw [afterDelete_eq env reg team t ht]
  have a := delete_global_domain_slots env reg t u
  have b := delete_host_topology_slots env (delete_global_domain env reg t).2 t u
  have c := delete_unit_mapping_slots env
    (delete_host_topology env (delete_global_domain env reg t).2 t).2 t u
  simp only [hu, false_and, if_false] at a b c
  split_ifs
  · rfl
  · simp only [slots, a]
  · simp only [slots, a, b]
  · simp only [slots, a, b, c]

theorem delete_code_local (env : Collab) (reg reg2 : Registry)
    (t : Fin DART__BASE__LOCALITY__MAX_TEAM_DOMAINS) (h : slots reg t = slots reg2 t) :
    (delete_global_domain env reg t).1 = (delete_global_domain env reg2 t).1 ∧
    (∀ r r2 : Registry, r.host_topology_ t = r2.host_topology_ t →
      (delete_host_topology env r t).1 = (delete_host_topology env r2 t).1) ∧
    (∀ r r2 : Registry, r.unit_mapping_ t = r2.unit_mapping_ t →
      (delete_unit_mapping env r t).1 = (delete_unit_mapping env r2 t).1) := by
  simp only [slots, Prod.mk.injEq] at h
  refine ⟨?_, ?_, ?_⟩
  · unfold delete_global_domain
    rw [h.1]
    cases reg2.global_domain_ t with
    | none => rfl
    | some d => simp only; split_ifs <;> rfl
  · intro r r2 hr
    unfold delete_host_topology
    rw [hr]
    cases r2.host_topology_ t with
    | none => rfl
    | some d => simp only; split_ifs <;> rfl
  · intro r r2 hr
    unfold delete_unit_mapping
    rw [hr]
    cases r2.unit_mapping_ t with
    | none => rfl
    | some d => simp only; split_ifs <;> rfl

theorem delete_local (env : Collab) (reg reg2 : Registry) (team : Int)
    (t : Fin DART__BASE__LOCALITY__MAX_TEAM_DOMAINS) (ht : teamIndex team = some t)
    (h : slots reg t = slots reg2 t) :
    slots (afterDelete env reg team) t = slots (afterDelete env reg2 team) t := by
  obtain ⟨c1, c2, c3⟩ := delete_code_local env reg reg2 t h
  have h0 := h
  simp only [slots, Prod.mk.injEq] at h0
  obtain ⟨e1, e2, e3⟩ := h0
  rw [afterDelete_eq env reg team t ht, afterDelete_eq env reg2 team t ht]
  have a := delete_global_domain_slots env reg t t
  have a2 := delete_global_domain_slots env reg2 t t
  have b := delete_host_topology_slots env (delete_global_domain env reg t).2 t t
  have b2 := delete_host_topology_slots env (delete_global_domain env reg2 t).2 t t
  have c := delete_unit_mapping_slots env
    (delete_host_topology env (delete_global_domain env reg t).2 t).2 t t
  have cc := delete_unit_mapping_slots env
    (delete_host_topology env (delete_global_domain env reg2 t).2 t).2 t t
  have hb : (delete_host_topology env (delete_global_domain env reg t).2 t).1
      = (delete_host_topology env (delete_global_domain env reg2 t).2 t).1 :=
    c2 _ _ (by rw [a.2.1, a2.2.1, e2])
  have hc : (delete_unit_mapping env
        (delete_host_topology env (delete_global_domain env reg t).2 t).2 t).1
      = (delete_unit_mapping env
        (delete_host_topology env (delete_global_domain env reg2 t).2 t).2 t).1 :=
    c3 _ _ (by rw [b.2.2, b2.2.2, a.2.2, a2.2.2, e3])
  rw [e1, e2, e3, c1, hb]
  split_ifs
  · exact h
  · simp only [slots, a, a2, c1, e1, e2, e3]
  · simp only [slots, a, a2, b, b2, c1, hb, e1, e2, e3]
  · simp only [slots, a, a2, b, b2, c, cc, c1, hb, hc, e1, e2, e3]


theorem finalize_loop_eq (env : Collab) : ∀ (l : List Nat) (c : dart_ret_t) (reg : Registry),
    (∀ n ∈ l, n < DART__BASE__LOCALITY__MAX_TEAM_DOMAINS) →
    ∃ c1, l.foldl (finalize_step env) (Outcome.ret c reg)
      = Outcome.ret c1 (afterDeletes env reg l) := by
  intro l
  induction l with
  | nil => intro c reg _; exact ⟨c, rfl⟩
  | cons n ns ih =>
    intro c reg h
    obtain ⟨c1, reg1, h1⟩ := delete_returns env reg (n : Int) ⟨n, h n (by simp)⟩
      (teamIndex_nat n (h n (by simp)))
    have h2 : afterDelete env reg (n : Int) = reg1 := by
      simp only [afterDelete, h1]
    obtain ⟨c2, h3⟩ := ih c1 reg1 (fun m hm => h m (by simp [hm]))
    refine ⟨c2, ?_⟩
    simp only [List.foldl_cons, finalize_step, h1, afterDeletes, h2]
    exact h3

theorem afterDeletes_slots (env : Collab) : ∀ (l : List Nat) (reg : Registry)
    (t : Fin DART__BASE__LOCALITY__MAX_TEAM_DOMAINS),
    (∀ n ∈ l, n < DART__BASE__LOCALITY__MAX_TEAM_DOMAINS) → l.Nodup →
    slots (afterDeletes env reg l) t
      = if t.val ∈ l then slots (afterDelete env reg (t.val : Int)) t else slots reg t := by
  intro l
  induction l with
  | nil => intro reg t _ _; simp [afterDeletes]
  | cons n ns ih =>
    intro reg t h hnd
    have hn := h n (by simp)
    have hrec := ih (afterDelete env reg (n : Int)) t (fun m hm => h m (by simp [hm]))
      (List.nodup_cons.mp hnd).2
    have hstep : afterDeletes env reg (n :: ns)
        = afterDeletes env (afterDelete env reg (n : Int)) ns := rfl
    rw [hstep, hrec]
    by_cases e : t.val = n
    · have hnot : t.val ∉ ns := by rw [e]; exact (List.nodup_cons.mp hnd).1
      rw [if_neg hnot, if_pos (by rw [e]; exact List.mem_cons_self n ns), e]
    · have hne : t ≠ ⟨n, hn⟩ := fun h2 => e (by rw [h2])
      have hfr := delete_frame env reg (n : Int) ⟨n, hn⟩ t (teamIndex_nat n hn) hne
      by_cases hmem : t.val ∈ ns
      · have hl := delete_local env (afterDelete env reg (n : Int)) reg (t.val : Int) t
          (teamIndex_nat t.val t.isLt) hfr
        simp only [hmem, if_true, List.mem_cons, e, false_or, hl]
      · simp only [hmem, if_false, List.mem_cons, e, false_or, hfr]

/-- C9, amended: finalize does not report delete failures. For every registry
state and whatever the release operations return, finalize returns `DART_OK`,
and the registry it leaves is the one left by a delete of each team id
`0, ..., 31` in ascending order, whatever codes these deletes return,
followed by the barrier. In it, the three slots of every team are as a delete
of that team alone leaves them. -/
theorem finalize_returns_ok (env : Collab) (reg : Registry) :
    dart__base__locality__finalize env reg
      = Outcome.ret DART_OK
          { afterDeletes env reg (List.range DART__BASE__LOCALITY__MAX_TEAM_DOMAINS) with
            calls := (afterDeletes env reg
                (List.range DART__BASE__LOCALITY__MAX_TEAM_DOMAINS)).calls
              ++ [Call.barrier env.DART_TEAM_ALL] } ∧
    ∀ t : Fin DART__BASE__LOCALITY__MAX_TEAM_DOMAINS,
      slots (afterDeletes env reg (List.range DART__BASE__LOCALITY__MAX_TEAM_DOMAINS)) t
        = slots (afterDelete env reg (t.val : Int)) t := by
  constructor
  · obtain ⟨c1, h1⟩ := finalize_loop_eq env
      (List.range DART__BASE__LOCALITY__MAX_TEAM_DOMAINS) DART_OK reg
      (fun n hn => List.mem_range.mp hn)
    unfold dart__base__locality__finalize
    rw [h1]
  · intro t
    rw [afterDeletes_slots env _ reg t (fun n hn => List.mem_range.mp hn)
      (List.nodup_range _)]
    rw [if_pos (List.mem_range.mpr t.isLt)]


theorem teamIndex_some (team : Int)
    (h : ¬ (team < 0 ∨ (DART__BASE__LOCALITY__MAX_TEAM_DOMAINS : Int) ≤ team)) :
    ∃ t, teamIndex team = some t := by
  unfold teamIndex
  rw [dif_pos (by omega)]
  exact ⟨_, rfl⟩

theorem domain_root_tag (reg : Registry) (team : Int)
    (t : Fin DART__BASE__LOCALITY__MAX_TEAM_DOMAINS) (loc : Option dart_domain_locality_t)
    (ht : teamIndex team = some t) :
    dart__base__locality__domain reg team ['.'] loc
      = Outcome.ret DART_OK (reg.global_domain_ t) := by
  have hs : strchr ['.'] '.' = some 0 := by simp [strchr, strchr_aux]
  have d0 : deref ['.'] 0 = some '.' := rfl
  have d1 : deref ['.'] 1 = some NUL := rfl
  have hdot : ¬ ('.' = NUL) := by decide
  simp only [dart__base__locality__domain, ht, hs, List.length_cons, List.length_nil,
    domain_scan, d0, d1, if_neg hdot, if_true, Nat.zero_add, Nat.reduceAdd]

/-- C10, amended: team ids are not compared with the capacity of the tables;
each function uses the team id as the index of its table accesses. These
accesses lie inside the tables exactly for the team ids `0 .. 31`: there
delete and the unit lookup always return, and the resolver returns the slot
of the team for the root tag; for any other team id delete, the unit lookup
and the resolver make an access outside the tables, and so does create unless
the assertion on `dart_hwinfo` has ended the process before. The model stops
at an access outside the tables (`fault`): the behaviour of the code is
undefined from there on. -/
theorem team_out_of_range (env : Collab) (reg : Registry) (team unit : Int)
    (loc : Option dart_domain_locality_t) :
    (dart__base__locality__delete env reg team = Outcome.fault ↔
      (team < 0 ∨ (DART__BASE__LOCALITY__MAX_TEAM_DOMAINS : Int) ≤ team)) ∧
    (dart__base__locality__unit env reg team unit = Outcome.fault ↔
      (team < 0 ∨ (DART__BASE__LOCALITY__MAX_TEAM_DOMAINS : Int) ≤ team)) ∧
    (dart__base__locality__domain reg team ['.'] loc = Outcome.fault ↔
      (team < 0 ∨ (DART__BASE__LOCALITY__MAX_TEAM_DOMAINS : Int) ≤ team)) ∧
    ((team < 0 ∨ (DART__BASE__LOCALITY__MAX_TEAM_DOMAINS : Int) ≤ team) →
      (∀ domain_tag, dart__base__locality__domain reg team domain_tag loc = Outcome.fault) ∧
      dart__base__locality__create env reg team
        = (if DART_ASSERT_RETURNS env env.dart_hwinfo.1 DART_OK = true then Outcome.fault
           else Outcome.stop)) ∧
    (∀ t, teamIndex team = some t →
      (∃ c reg1, dart__base__locality__delete env reg team = Outcome.ret c reg1) ∧
      (∃ c out, dart__base__locality__unit env reg team unit = Outcome.ret c out) ∧
      dart__base__locality__domain reg team ['.'] loc
        = Outcome.ret DART_OK (reg.global_domain_ t)) := by
  have hin : ∀ t, teamIndex team = some t →
      (∃ c reg1, dart__base__locality__delete env reg team = Outcome.ret c reg1) ∧
      (∃ c out, dart__base__locality__unit env reg team unit = Outcome.ret c out) ∧
      dart__base__locality__domain reg team ['.'] loc
        = Outcome.ret DART_OK (reg.global_domain_ t) := by
    intro t ht
    refine ⟨delete_returns env reg team t ht, ?_, domain_root_tag reg team t loc ht⟩
    simp only [dart__base__locality__unit, ht]
    split_ifs <;> exact ⟨_, _, rfl⟩
  have hout : (team < 0 ∨ (DART__BASE__LOCALITY__MAX_TEAM_DOMAINS : Int) ≤ team) →
      dart__base__locality__delete env reg team = Outcome.fault ∧
      dart__base__locality__unit env reg team unit = Outcome.fault ∧
      (∀ domain_tag, dart__base__locality__domain reg team domain_tag loc = Outcome.fault) ∧
      dart__base__locality__create env reg team
        = (if DART_ASSERT_RETURNS env env.dart_hwinfo.1 DART_OK = true then Outcome.fault
           else Outcome.stop) := by
    intro h
    have ht := teamIndex_none team h
    refine ⟨?_, ?_, ?_, ?_⟩
    · simp only [dart__base__locality__delete, ht]
    · simp only [dart__base__locality__unit, ht]
    · intro domain_tag
      simp only [dart__base__locality__domain, ht]
    · simp only [dart__base__locality__create, ht]
      cases DART_ASSERT_RETURNS env env.dart_hwinfo.1 DART_OK <;> simp
  refine ⟨⟨?_, fun h => (hout h).1⟩, ⟨?_, fun h => (hout h).2.1⟩,
    ⟨?_, fun h => (hout h).2.2.1 ['.']⟩, fun h => ⟨(hout h).2.2.1, (hout h).2.2.2⟩, hin⟩
  · intro hf
    by_contra hr
    obtain ⟨t, ht⟩ := teamIndex_some team hr
    obtain ⟨c, reg1, hd⟩ := (hin t ht).1
    rw [hd] at hf
    cases hf
  · intro hf
    by_contra hr
    obtain ⟨t, ht⟩ := teamIndex_some team hr
    obtain ⟨c, out, hd⟩ := (hin t ht).2.1
    rw [hd] at hf
    cases hf
  · intro hf
    by_contra hr
    obtain ⟨t, ht⟩ := teamIndex_some team hr
    rw [(hin t ht).2.2] at hf
    cases hf

/-- Witness of C10, amended: the team id -1, outside the tables, and the team
id 31, the last one inside. -/
theorem team_out_of_range_witness :
    ((-1 : Int) < 0 ∨ (DART__BASE__LOCALITY__MAX_TEAM_DOMAINS : Int) ≤ -1) ∧
    dart__base__locality__delete (demoCollab DART_OK DART_OK DART_OK) demoRegistry (-1)
      = Outcome.fault ∧
    teamIndex 31 = some 31 ∧
    dart__base__locality__domain demoRegistry 31 ['.'] none
      = Outcome.ret DART_OK (demoRegistry.global_domain_ 31) :=
  ⟨Or.inl (by decide),
    (team_out_of_range (demoCollab DART_OK DART_OK DART_OK) demoRegistry (-1) 0 none).1.mpr
      (Or.inl (by decide)),
    rfl,
    ((team_out_of_range (demoCollab DART_OK DART_OK DART_OK) demoRegistry 31 0 none).2.2.2.2
      31 rfl).2.2⟩


/-! ## The reads and the iterations of the tag scan -/

theorem strtol_reads_bounds (s : List Char) (p : Nat) (hp : p ≤ s.length) :
    ∀ i ∈ strtol_reads s p, p ≤ i ∧ i ≤ s.length := by
  unfold strtol_reads
  simp only
  have h1 := takeWhile_length_le isspace (List.drop p s)
  have h2 : (List.drop p s).length = s.length - p := List.length_drop p s
  generalize hr1 : List.drop (List.takeWhile isspace (List.drop p s)).length (List.drop p s)
    = rest1
  have h3 : rest1.length
      = (List.drop p s).length - (List.takeWhile isspace (List.drop p s)).length := by
    rw [← hr1, List.length_drop]
  generalize hsg : (match rest1 with
    | c :: _ => if c = '-' ∨ c = '+' then 1 else 0
    | [] => 0) = sign
  have h5 : sign ≤ rest1.length := by
    rw [← hsg]
    cases rest1 with
    | nil => simp
    | cons c cs => simp only [List.length_cons]; split_ifs <;> omega
  have h4 := takeWhile_length_le isdigit (List.drop sign rest1)
  rw [List.length_drop] at h4
  intro i hi
  rw [List.mem_range'_1] at hi
  omega

theorem domain_scan_traced_outcome (domain_tag : List Char) : ∀ (fuel : Nat)
    (dom : Option dart_domain_locality_t) (dot_begin : Option Nat)
    (loc : Option dart_domain_locality_t),
    (domain_scan_traced domain_tag fuel dom dot_begin loc).outcome
      = domain_scan domain_tag fuel dom dot_begin loc := by
  intro fuel
  induction fuel with
  | zero => intro dom dot_begin loc; rfl
  | succ f ih =>
    intro dom dot_begin loc
    cases dot_begin with
    | none => rfl
    | some db =>
      simp only [domain_scan_traced, domain_scan]
      cases deref domain_tag db with
      | none => rfl
      | some c =>
        simp only
        split_ifs
        · rfl
        · cases deref domain_tag (db + 1) with
          | none => rfl
          | some c1 =>
            simp only
            split_ifs
            · rfl
            · cases dom with
              | none => rfl
              | some d =>
                simp only
                split_ifs
                · rfl
                · cases d.child (toInt32 (strtol domain_tag (db + 1)).1) with
                  | none => rfl
                  | some c2 => exact ih _ _ _

theorem domain_scan_traced_bounds (domain_tag : List Char) : ∀ (fuel : Nat)
    (dom : Option dart_domain_locality_t) (db : Nat) (loc : Option dart_domain_locality_t),
    db ≤ domain_tag.length →
    (∀ i ∈ (domain_scan_traced domain_tag fuel dom (some db) loc).reads,
      i ≤ domain_tag.length) ∧
    (∀ p ∈ (domain_scan_traced domain_tag fuel dom (some db) loc).positions,
      db ≤ p ∧ p < domain_tag.length) ∧
    (domain_scan_traced domain_tag fuel dom (some db) loc).positions.Pairwise (· < ·) ∧
    (domain_scan_traced domain_tag fuel dom (some db) loc).positions.length
      ≤ domain_tag.length - db := by
  intro fuel
  induction fuel with
  | zero => intro dom db loc _; simp [domain_scan_traced]
  | succ f ih =>
    intro dom db loc hdb
    have hd := deref_le domain_tag db hdb
    simp only [domain_scan_traced, hd]
    split_ifs with hc
    · simp [hdb]
    · have hlt : db < domain_tag.length := by
        by_contra hge
        have : db = domain_tag.length := by omega
        apply hc
        rw [this]
        simp
      have hd1 := deref_le domain_tag (db + 1) (by omega)
      have hb := strtol_bounds domain_tag (db + 1) (by omega)
      have hr := strtol_reads_bounds domain_tag (db + 1) (by omega)
      simp only [hd1]
      have base : (∀ i ∈ db :: (db + 1) :: strtol_reads domain_tag (db + 1),
            i ≤ domain_tag.length) ∧
          (∀ p ∈ [db], db ≤ p ∧ p < domain_tag.length) ∧
          List.Pairwise (· < ·) [db] ∧ [db].length ≤ domain_tag.length - db := by
        refine ⟨?_, ?_, List.pairwise_singleton _ _, ?_⟩
        · intro i hi
          simp only [List.mem_cons] at hi
          rcases hi with e | e | e
          · omega
          · omega
          · exact (hr i e).2
        · intro p hp
          simp only [List.mem_singleton] at hp
          omega
        · simp only [List.length_singleton]; omega
      split_ifs
      · refine ⟨?_, ?_, List.Pairwise.nil, Nat.zero_le _⟩
        · intro i hi
          simp only [List.mem_cons, List.mem_singleton, List.not_mem_nil, or_false] at hi
          omega
        · intro p hp; cases hp
      · cases dom with
        | none => exact base
        | some d =>
          simp only
          split_ifs
          · exact base
          · cases d.child (toInt32 (strtol domain_tag (db + 1)).1) with
            | none => exact base
            | some c2 =>
              simp only
              obtain ⟨r1, r2, r3, r4⟩ := ih (some c2) (strtol domain_tag (db + 1)).2 loc hb.2
              refine ⟨?_, ?_, ?_, ?_⟩
              · intro i hi
                rw [List.mem_append] at hi
                rcases hi with e | e
                · exact base.1 i e
                · exact r1 i e
              · intro p hp
                simp only [List.mem_cons] at hp
                rcases hp with e | e
                · omega
                · have := r2 p e
                  omega
              · refine List.pairwise_cons.mpr ⟨?_, r3⟩
                intro p hp
                have := r2 p hp
                omega
              · simp only [List.length_cons]
                omega


/-- C18: the tag scan of `dart__base__locality__domain` terminates and stays
inside the string, for every registry, team, tag, output and tree. The
function gives the loop fuel for `length + 1` tests of its condition and never
runs out of it. The trace of that loop, started as the function starts it (at
the index `strchr` returns, with any domain `dom` as the root), has the
outcome of the loop; every index at which the loop condition or `strtol` reads
a character is at most `length`, the index of the terminator; the values of
`dot_begin` in successive iterations of the loop body are strictly increasing
(also where `strtol` finds no digit and consumes nothing) and lie before the
terminator; and the loop body runs at most `length` times. -/
theorem domain_scan_stays_in_string (reg : Registry) (team : Int) (domain_tag : List Char)
    (locality dom : Option dart_domain_locality_t) :
    dart__base__locality__domain reg team domain_tag locality ≠ Outcome.nofuel ∧
    (domain_scan_traced domain_tag (domain_tag.length + 1) dom (strchr domain_tag '.')
        locality).outcome
      = domain_scan domain_tag (domain_tag.length + 1) dom (strchr domain_tag '.') locality ∧
    (∀ i ∈ (domain_scan_traced domain_tag (domain_tag.length + 1) dom (strchr domain_tag '.')
        locality).reads, i ≤ domain_tag.length) ∧
    (domain_scan_traced domain_tag (domain_tag.length + 1) dom (strchr domain_tag '.')
        locality).positions.Pairwise (· < ·) ∧
    (∀ p ∈ (domain_scan_traced domain_tag (domain_tag.length + 1) dom (strchr domain_tag '.')
        locality).positions, p < domain_tag.length) ∧
    (domain_scan_traced domain_tag (domain_tag.length + 1) dom (strchr domain_tag '.')
        locality).positions.length ≤ domain_tag.length := by
  have hstart : ∀ db, strchr domain_tag '.' = some db → db < domain_tag.length := by
    intro db hs
    have := strchr_aux_bound '.' domain_tag 0 db (by decide) hs
    omega
  refine ⟨?_, domain_scan_traced_outcome domain_tag _ _ _ _, ?_⟩
  · unfold dart__base__locality__domain
    cases teamIndex team with
    | none => simp
    | some t =>
      simp only
      cases hs : strchr domain_tag '.' with
      | none => simp [domain_scan]
      | some db =>
        have := hstart db hs
        exact scan_terminates domain_tag _ _ db locality (by omega) (by omega)
  · cases hs : strchr domain_tag '.' with
    | none => simp [domain_scan_traced]
    | some db =>
      have hlt := hstart db hs
      obtain ⟨r1, r2, r3, r4⟩ :=
        domain_scan_traced_bounds domain_tag (domain_tag.length + 1) dom db locality (by omega)
      exact ⟨r1, r3, fun p hp => (r2 p hp).2, by omega⟩

/-- Witness of C18: the trace of the scan of the tags `.1` and `.a.0` on the
tree of the concrete scenario. The part `a` has no digit: `strtol` reads the
`a` only and consumes nothing, and the loop body runs next with `dot_begin` at
index 1 and then at index 2. -/
theorem domain_scan_stays_in_string_witness :
    (domain_scan_traced ['.', '1'] (['.', '1'].length + 1) (some demoRoot)
        (strchr ['.', '1'] '.') none).reads = [0, 1, 1, 2, 2] ∧
    (domain_scan_traced ['.', 'a', '.', '0'] (['.', 'a', '.', '0'].length + 1) (some demoRoot)
        (strchr ['.', 'a', '.', '0'] '.') none).reads = [0, 1, 1, 1, 2, 2, 2, 3, 3, 4] ∧
    (domain_scan_traced ['.', 'a', '.', '0'] (['.', 'a', '.', '0'].length + 1) (some demoRoot)
        (strchr ['.', 'a', '.', '0'] '.') none).positions = [0, 1, 2] ∧
    (∀ i ∈ (domain_scan_traced ['.', '1'] (['.', '1'].length + 1) (some demoRoot)
        (strchr ['.', '1'] '.') none).reads, i ≤ ['.', '1'].length) :=
  ⟨by rfl, by rfl, by rfl,
    (domain_scan_stays_in_string demoRegistry 0 ['.', '1'] none (some demoRoot)).2.2.1⟩

end Dart
